import Mathlib

/-!
SkyDiveDan: the simulation core of `skydiver.cc`.

A shallow embedding of the geometry (`Rect`), the clock and score state
(`Game_State`), the sprites (`Sprite`, `Cloud_Sprite`, `Coin_Sprite`,
`Diver_Sprite`) and, of `Game_Scene`, the camera (`moveViewport`) and the pass
over the clouds of `think`, followed by theorems about them.  `Coin_Sprite::think`
computes with `sin` and `cos` and is not embedded.

Conventions of the embedding.

* C++ `int` is `ℤ`.  Signed overflow is undefined behaviour in C++, so the
  embedding describes every execution in which no `int` operation overflows.
  Integer division `/` truncates toward zero and is `Int.tdiv`.
* A C++ `double` is a rational number; infinities and NaN are not represented.
  In `Diver_Sprite`, where a position is the truncation of a sum of `double`s
  and so depends on their last bit, every literal and every arithmetic result
  is rounded to the nearest binary64 value, ties to even (`fl`), as on a
  platform that evaluates each `double` operation in binary64: `MOVE_RATE` is
  `fl (6/5)`, and `vy -= MOVE_RATE` is `fl (vy - MOVE_RATE)`.  In `Game_State`
  and in `moveViewport` the arithmetic is exact and the literals `1.1` and
  `40.3` are the rationals `11/10` and `403/10`; rounding is brought in by `fl`
  where a statement about them depends on it.
* The conversion `double → int` truncates toward zero (`truncToInt`).
* A member function that mutates `*this` becomes a function that returns the
  new object; `collectCoin`, which also returns a `bool`, returns a pair.
* `millitime()` reads the wall clock; its result is an explicit argument of
  `Game_State.think`.
* The SDL surface of a sprite plays no part in the simulation and is left out.
* `random()` is a stream of natural numbers: a function that draws takes the
  stream and returns what is left of it.  `%` is `Int.tmod`; a remainder by
  zero, undefined in C++, has the value Lean gives it.
* A constructor that `assert`s returns an `Option`: `none` when an assertion
  fails.
-/

namespace SkyDiveDan

/-! ## Geometry -/

/-- The class `Rect`: `m_x`, `m_y`, `m_w`, `m_h`, all `int`. -/
structure Rect where
  m_x : ℤ
  m_y : ℤ
  m_w : ℤ
  m_h : ℤ
  deriving DecidableEq, Repr

namespace Rect

/-- The constructor `Rect()`. -/
def default : Rect := ⟨0, 0, 0, 0⟩

/-- The getter `width()`. -/
def width (r : Rect) : ℤ := r.m_w

/-- The setter `width(int w)`. -/
def setWidth (r : Rect) (w : ℤ) : Rect := { r with m_w := w }

/-- The getter `height()`. -/
def height (r : Rect) : ℤ := r.m_h

/-- The setter `height(int h)`. -/
def setHeight (r : Rect) (h : ℤ) : Rect := { r with m_h := h }

/-- The getter `left()`. -/
def left (r : Rect) : ℤ := r.m_x

/-- The setter `left(int x)`. -/
def setLeft (r : Rect) (x : ℤ) : Rect := { r with m_x := x }

/-- The accessor `right()`: `m_x + m_w`. -/
def right (r : Rect) : ℤ := r.m_x + r.m_w

/-- The getter `top()`. -/
def top (r : Rect) : ℤ := r.m_y

/-- The setter `top(int y)`. -/
def setTop (r : Rect) (y : ℤ) : Rect := { r with m_y := y }

/-- The accessor `bottom()`: `m_y + m_h`. -/
def bottom (r : Rect) : ℤ := r.m_y + r.m_h

/-- The accessor `horizontalCenter()`: `m_x + (m_w/2)`, integer division. -/
def horizontalCenter (r : Rect) : ℤ := r.m_x + Int.tdiv r.m_w 2

/-- The accessor `verticalCenter()`: `m_y + (m_h/2)`, integer division. -/
def verticalCenter (r : Rect) : ℤ := r.m_y + Int.tdiv r.m_h 2

/-- The mutator `moveTo(int x, int y)`. -/
def moveTo (r : Rect) (x y : ℤ) : Rect := { r with m_x := x, m_y := y }

/-- The method `collidesWith(Rect *B)`: four early returns of `false`, then `true`. -/
def collidesWith (A B : Rect) : Bool :=
  if A.bottom ≤ B.top then false
  else if A.top ≥ B.bottom then false
  else if A.right ≤ B.left then false
  else if A.left ≥ B.right then false
  else true

/-- A mutator call on a `Rect`, with its arguments. -/
inductive Op where
  | width (w : ℤ)
  | height (h : ℤ)
  | left (x : ℤ)
  | top (y : ℤ)
  | moveTo (x y : ℤ)
  deriving DecidableEq, Repr

/-- The rectangle after one mutator call. -/
def apply (r : Rect) : Op → Rect
  | Op.width w => r.setWidth w
  | Op.height h => r.setHeight h
  | Op.left x => r.setLeft x
  | Op.top y => r.setTop y
  | Op.moveTo x y => r.moveTo x y

/-- The rectangle after a sequence of mutator calls, first call first. -/
def applyAll (r : Rect) (ops : List Op) : Rect := ops.foldl apply r

/-- Whether a mutator call passes a negative width or height. -/
def Op.negativeSize : Op → Bool
  | Op.width w => decide (w < 0)
  | Op.height h => decide (h < 0)
  | _ => false

/-- The number of pixel columns two rectangles share: the length of the
intersection of their horizontal spans `[left, right)`. -/
def overlapColumns (A B : Rect) : ℤ := min A.right B.right - max A.left B.left

end Rect

/-! ## Numbers -/

/-- The C++ conversion of a `double` to an `int`: the fractional part is
discarded (truncation toward zero). -/
def truncToInt (q : ℚ) : ℤ := if 0 ≤ q then ⌊q⌋ else ⌈q⌉

/-- The integer nearest to a rational, a tie going to the even neighbour. -/
def roundEven (x : ℚ) : ℤ :=
  if x - ⌊x⌋ < 1 / 2 then ⌊x⌋
  else if 1 / 2 < x - ⌊x⌋ then ⌊x⌋ + 1
  else if ⌊x⌋ % 2 = 0 then ⌊x⌋
  else ⌊x⌋ + 1

/-- The exponent of the spacing of the doubles around `x`: 52 below the binary
exponent of `x`, which is held at -1022 for the subnormal numbers. -/
def ulpExp (x : ℚ) : ℤ := max (Int.log 2 |x|) (-1022) - 52

/-- The double a real result is rounded to by an arithmetic operation on
`double`s (IEEE 754 binary64, round to nearest, ties to even): the nearest
multiple of the spacing `2 ^ ulpExp x`.  Results too large for a `double` are
not treated apart; with `MOVE_RATE` 1.2 no operation of the diver on finite
doubles produces one. -/
def fl (x : ℚ) : ℚ :=
  if x = 0 then 0 else (roundEven (x / 2 ^ ulpExp x) : ℚ) * 2 ^ ulpExp x

/-- The results of the calls of `random()` still to come, next call first. -/
abbrev RandomStream := ℕ → ℕ

/-- The call `random()`: its result and the stream left for later calls. -/
def random (rs : RandomStream) : ℤ × RandomStream := ((rs 0 : ℤ), fun i => rs (i + 1))

/-- The stream that yields the numbers of a list, then zeros. -/
def RandomStream.ofList (l : List ℕ) : RandomStream := fun i => l.getD i 0

/-! ## Input events -/

/-- The key symbols the simulation tells apart. -/
inductive SDLKey where
  | SDLK_LEFT
  | SDLK_RIGHT
  | SDLK_OTHER
  deriving DecidableEq, Repr

/-- An `SDL_Event` as far as the simulation reads it: a key-down event with its
key symbol, or an event of any other type. -/
inductive SDL_Event where
  | SDL_KEYDOWN (sym : SDLKey)
  | SDL_OTHER
  deriving DecidableEq, Repr

/-! ## Clock and score state -/

/-- The class `Game_State`.  `m_event` is the event pointer (`none` for `NULL`). -/
structure Game_State where
  m_event : Option SDL_Event
  m_now : ℚ
  m_score : ℤ
  m_coins : ℤ
  m_chain_expire : ℚ
  m_chain_time : ℚ
  m_viewport : Rect
  m_next_wave : ℚ
  m_wave : ℤ
  deriving DecidableEq, Repr

namespace Game_State

/-- The constant `WAVE_DURATION`. -/
def WAVE_DURATION : ℤ := 8

/-- The constructor `Game_State()`. -/
def init : Game_State :=
  { m_event := none, m_now := 0, m_score := 0, m_coins := 0,
    m_chain_expire := 0, m_chain_time := 11 / 10, m_viewport := Rect.default,
    m_next_wave := 0, m_wave := 0 }

/-- The method `think(SDL_Event *event)`; `t` is the value `millitime()` returns. -/
def think (s : Game_State) (event : Option SDL_Event) (t : ℚ) : Game_State :=
  let s1 := { s with m_event := event }
  let s2 := { s1 with m_now := t }
  let s3 := if s2.m_chain_expire < s2.m_now then { s2 with m_chain_expire := s2.m_now } else s2
  if s3.m_next_wave ≤ s3.m_now then
    { s3 with m_next_wave := s3.m_now + (WAVE_DURATION : ℚ), m_wave := s3.m_wave + 1 }
  else s3

/-- The method `isCoinChained()`. -/
def isCoinChained (s : Game_State) : Bool := decide (s.m_chain_expire > s.m_now)

/-- The method `coinMultiplier()`. -/
def coinMultiplier (s : Game_State) : ℚ :=
  let m := (s.m_chain_expire - s.m_now) / 2
  if m < 1 then 1
  else if m > 10 then 10
  else m

/-- The method `collectCoin()`: the returned `bool` and the state after the call.
`m_score += 1 * coinMultiplier()` adds in `double` and converts back to `int`. -/
def collectCoin (s : Game_State) : Bool × Game_State :=
  let s1 := { s with m_chain_expire := s.m_chain_expire + s.m_chain_time }
  let s2 := { s1 with m_score := truncToInt ((s1.m_score : ℚ) + 1 * s1.coinMultiplier) }
  (decide (s2.coinMultiplier > 5), s2)

/-- The state after `n` calls of `collectCoin()` in immediate succession. -/
def collectCoinTimes (s : Game_State) : ℕ → Game_State
  | 0 => s
  | n + 1 => (collectCoinTimes s n).collectCoin.2

/-- The value the `k`-th of a run of successive `collectCoin()` calls returns
(`k = 1` is the first call). -/
def collectCoinResult (s : Game_State) (k : ℕ) : Bool :=
  (collectCoinTimes s (k - 1)).collectCoin.1

/-- The state after a sequence of frame advances, each a `think(event)` with the
clock reading it gets, oldest first. -/
def thinkAll (s : Game_State) : List (Option SDL_Event × ℚ) → Game_State
  | [] => s
  | f :: fs => thinkAll (s.think f.1 f.2) fs

/-- A call a `Game_Scene` makes on its `Game_State`. -/
inductive Call where
  | think (event : Option SDL_Event) (t : ℚ)
  | collectCoin
  deriving DecidableEq, Repr

/-- The state after one call. -/
def step (s : Game_State) : Call → Game_State
  | Call.think e t => s.think e t
  | Call.collectCoin => s.collectCoin.2

/-- The state after a sequence of calls, first call first. -/
def run (s : Game_State) (calls : List Call) : Game_State := calls.foldl step s

/-- The state of the 800 by 600 game as `Game_Scene(800, 600)` sets it up:
`Game_State()` with the viewport `(0, 0, 800, 600)`. -/
def sample : Game_State := { init with m_viewport := ⟨0, 0, 800, 600⟩ }

/-- `Game_State()` with the 5 by 8 viewport `(0, 0, 5, 8)`. -/
def tiny : Game_State := { init with m_viewport := ⟨0, 0, 5, 8⟩ }

end Game_State

/-! ## Sprites -/

/-- The class `Sprite`: a `Rect` with a visibility flag. -/
structure Sprite extends Rect where
  m_visible : Bool
  deriving DecidableEq, Repr

/-- The class `Cloud_Sprite`. -/
structure Cloud_Sprite extends Sprite where
  m_sleep : ℤ
  m_velocity : ℤ
  deriving DecidableEq, Repr

/-- The class `Coin_Sprite`. -/
structure Coin_Sprite extends Sprite where
  m_target_x : ℤ
  m_target_y : ℤ
  deriving DecidableEq, Repr

/-- The class `Diver_Sprite`. -/
structure Diver_Sprite extends Sprite where
  MOVE_RATE : ℚ
  m_velocity_x : ℚ
  m_velocity_y : ℚ
  deriving DecidableEq, Repr

namespace Sprite

/-- The constructor `Sprite(int width, int height)`, with its two assertions. -/
def create (width height : ℤ) : Option Sprite :=
  if width > 0 then
    if height > 0 then some { m_x := 0, m_y := 0, m_w := width, m_h := height, m_visible := true }
    else none
  else none

/-- The method `setVisible(bool visible)`. -/
def setVisible (sp : Sprite) (visible : Bool) : Sprite := { sp with m_visible := visible }

/-- The method `isVisible()`. -/
def isVisible (sp : Sprite) : Bool := sp.m_visible

end Sprite

namespace Cloud_Sprite

/-- The constructor `Cloud_Sprite(int width, int height)`. -/
def create (width height : ℤ) : Option Cloud_Sprite :=
  (Sprite.create width height).map fun sp => { toSprite := sp, m_sleep := 0, m_velocity := 0 }

/-- The method `velocity()`. -/
def velocity (c : Cloud_Sprite) : ℤ := c.m_velocity

/-- The inherited `setVisible(bool visible)`. -/
def setVisible (c : Cloud_Sprite) (visible : Bool) : Cloud_Sprite :=
  { c with m_visible := visible }

/-- The inherited `moveTo(int x, int y)`. -/
def moveTo (c : Cloud_Sprite) (x y : ℤ) : Cloud_Sprite := { c with m_x := x, m_y := y }

/-- The method `reset(Game_State *state)`; it makes four calls of `random()`. -/
def reset (c : Cloud_Sprite) (state : Game_State) (rs : RandomStream) :
    Cloud_Sprite × RandomStream :=
  let viewport := state.m_viewport
  let cloud_width := Int.tdiv viewport.width 5
  let cloud_height := Int.tdiv viewport.height 8
  let c1 := c.setVisible false
  let r1 := random rs
  let c2 := { c1 with m_sleep := Int.tmod r1.1 60 }
  let r2 := random r1.2
  let c3 := { c2 with m_velocity := 1 + Int.tmod r2.1 6 }
  let r3 := random r2.2
  let c4 := if Int.tmod r3.1 2 ≠ 0 then { c3 with m_velocity := 0 - c3.m_velocity } else c3
  let pos_x :=
    if c4.m_velocity > 0 then viewport.left - (cloud_width - 2)
    else viewport.left + (viewport.width - 2)
  let r4 := random r3.2
  let pos_y :=
    Int.tdiv viewport.height 2 + Int.tmod r4.1 (Int.tdiv viewport.height 2 - cloud_height)
  (c4.moveTo pos_x pos_y, r4.2)

/-- The method `think(Game_State *state)`; it draws from `random()` only when it
resets the cloud. -/
def think (c : Cloud_Sprite) (state : Game_State) (rs : RandomStream) :
    Cloud_Sprite × RandomStream :=
  let c1 := { c with m_sleep := c.m_sleep - 1 }
  if c1.m_sleep > 0 then (c1, rs)
  else
    let c2 := if c1.m_sleep = 0 then c1.setVisible true else c1
    let c3 := c2.moveTo (c2.left + c2.m_velocity) c2.top
    if ¬ (c3.collidesWith state.m_viewport = true) then c3.reset state rs else (c3, rs)

/-- A 160 by 75 cloud, as the 800 by 600 game builds it, at a given position
and with given sleep counter, velocity and visibility. -/
def sample (x y sleep velocity : ℤ) (visible : Bool) : Cloud_Sprite :=
  { m_x := x, m_y := y, m_w := 160, m_h := 75, m_visible := visible,
    m_sleep := sleep, m_velocity := velocity }

/-- A 1 by 1 cloud, the size `(5/5, 8/8)` of a cloud for a 5 by 8 viewport. -/
def tiny : Cloud_Sprite :=
  { m_x := 0, m_y := 0, m_w := 1, m_h := 1, m_visible := true, m_sleep := 0, m_velocity := 0 }

/-- The cloud after the part of `think` between the sleep check and the
recycling test, in the words of the specification: the counter is decremented,
the cloud becomes visible if the counter has reached zero, and the left edge is
translated by the velocity. -/
def advanced (c : Cloud_Sprite) : Cloud_Sprite :=
  { c with m_sleep := c.m_sleep - 1,
           m_visible := if c.m_sleep = 1 then true else c.m_visible,
           m_x := c.m_x + c.m_velocity }

/-- A visible cloud has used up its sleep counter. -/
def awake (c : Cloud_Sprite) : Prop := c.m_visible = true → c.m_sleep ≤ 0

/-- The cloud after `n` calls of `think` that each moved it without waking or
recycling it: the counter is `n` lower and the left edge has moved by `n` times
the velocity. -/
def drifted (c : Cloud_Sprite) (n : ℕ) : Cloud_Sprite :=
  { c with m_sleep := c.m_sleep - n, m_x := c.m_x + n * c.m_velocity }

/-- The cloud and the stream after `n` calls of `think` in succession. -/
def thinkTimes (c : Cloud_Sprite) (state : Game_State) (rs : RandomStream) :
    ℕ → Cloud_Sprite × RandomStream
  | 0 => (c, rs)
  | n + 1 => (thinkTimes c state rs n).1.think state (thinkTimes c state rs n).2

end Cloud_Sprite

namespace Coin_Sprite

/-- The constructor `Coin_Sprite(int size)`. -/
def create (size : ℤ) : Option Coin_Sprite :=
  (Sprite.create size size).map fun sp => { toSprite := sp, m_target_x := 10, m_target_y := 10 }

/-- The inherited `setVisible(bool visible)`. -/
def setVisible (c : Coin_Sprite) (visible : Bool) : Coin_Sprite :=
  { c with m_visible := visible }

/-- A 32 by 32 coin, as the 800 by 600 game builds it. -/
def sample : Coin_Sprite :=
  { m_x := 0, m_y := 0, m_w := 32, m_h := 32, m_visible := true,
    m_target_x := 10, m_target_y := 10 }

/-- The method `reset(Game_State *state)`; it makes two calls of `random()`. -/
def reset (c : Coin_Sprite) (state : Game_State) (rs : RandomStream) :
    Coin_Sprite × RandomStream :=
  let viewport := state.m_viewport
  let r1 := random rs
  let c1 := { c with m_target_x := viewport.left + Int.tmod r1.1 (viewport.width - c.width) }
  let r2 := random r1.2
  let c2 :=
    { c1 with m_target_y := viewport.top + Int.tmod r2.1 (Int.tdiv viewport.height 3 * 2) }
  (c2.setVisible true, r2.2)

end Coin_Sprite

namespace Diver_Sprite

/-- The constructor `Diver_Sprite(int size)`; `1.2` and `-0.1` are `double`
literals. -/
def create (size : ℤ) : Option Diver_Sprite :=
  (Sprite.create size size).map fun sp =>
    { toSprite := sp, MOVE_RATE := fl (6 / 5), m_velocity_x := 0,
      m_velocity_y := fl (-(1 / 10)) }

/-- The inherited `moveTo(int x, int y)`. -/
def moveTo (d : Diver_Sprite) (x y : ℤ) : Diver_Sprite := { d with m_x := x, m_y := y }

/-- The method `isFalling()`. -/
def isFalling (d : Diver_Sprite) : Bool := decide (d.m_velocity_y < 0)

/-- The method `moveLeft()`: the product is rounded, then the difference. -/
def moveLeft (d : Diver_Sprite) : Diver_Sprite :=
  { d with m_velocity_x := fl (d.m_velocity_x - fl (d.MOVE_RATE * (5 / 2))) }

/-- The method `moveRight()`: the product is rounded, then the sum. -/
def moveRight (d : Diver_Sprite) : Diver_Sprite :=
  { d with m_velocity_x := fl (d.m_velocity_x + fl (d.MOVE_RATE * (5 / 2))) }

/-- The method `bounceUp()`. -/
def bounceUp (d : Diver_Sprite) : Diver_Sprite :=
  { d with m_velocity_y := fl (d.MOVE_RATE * 25) }

/-- The method `smallBounceUp()`. -/
def smallBounceUp (d : Diver_Sprite) : Diver_Sprite :=
  { d with m_velocity_y := fl (d.MOVE_RATE * 15) }

/-- The method `bounceLeft()`. -/
def bounceLeft (d : Diver_Sprite) : Diver_Sprite :=
  { d with m_velocity_x := fl (0 - fl (d.MOVE_RATE * 20)) }

/-- The method `bounceRight()`. -/
def bounceRight (d : Diver_Sprite) : Diver_Sprite :=
  { d with m_velocity_x := fl (d.MOVE_RATE * 20) }

/-- The method `reset(Game_State *state)`, which does nothing. -/
def reset (d : Diver_Sprite) (_state : Game_State) : Diver_Sprite := d

/-- The method `think(Game_State *state)`.  Every arithmetic result is rounded
to a `double`.  The arguments of `moveTo` are sums of an `int`, converted to
`double` without error, and a `double`; the rounded sum is converted to `int`. -/
def think (d : Diver_Sprite) (state : Game_State) : Diver_Sprite :=
  let d1 :=
    match state.m_event with
    | some (SDL_Event.SDL_KEYDOWN SDLKey.SDLK_LEFT) => d.moveLeft
    | some (SDL_Event.SDL_KEYDOWN SDLKey.SDLK_RIGHT) => d.moveRight
    | _ => d
  let viewport := state.m_viewport
  let d2 := { d1 with m_velocity_x := fl (d1.m_velocity_x / d1.MOVE_RATE) }
  let d3 := { d2 with m_velocity_y := fl (d2.m_velocity_y - d2.MOVE_RATE) }
  let d4 := d3.moveTo (truncToInt (fl ((d3.left : ℚ) + d3.m_velocity_x)))
    (truncToInt (fl ((d3.top : ℚ) - d3.m_velocity_y)))
  let d5 := if d4.bottom > viewport.bottom then d4.smallBounceUp else d4
  if ¬ (d5.collidesWith viewport = true) then
    let d6 := if d5.left ≤ viewport.left then d5.bounceRight else d5
    if d6.right ≥ viewport.right then d6.bounceLeft else d6
  else d5

/-- A 40 by 40 diver, as the 800 by 600 game builds it, at a given position and
with given velocities. -/
def sample (x y : ℤ) (vx vy : ℚ) : Diver_Sprite :=
  { m_x := x, m_y := y, m_w := 40, m_h := 40, m_visible := true,
    MOVE_RATE := fl (6 / 5), m_velocity_x := vx, m_velocity_y := vy }

/-- The impulse a frame's event adds to `velocityX`, in the words of the
specification: -3 for a left key-down, +3 for a right key-down, 0 for no event
or any other event. -/
def keyImpulse : Option SDL_Event → ℚ
  | some (SDL_Event.SDL_KEYDOWN SDLKey.SDLK_LEFT) => -3
  | some (SDL_Event.SDL_KEYDOWN SDLKey.SDLK_RIGHT) => 3
  | _ => 0

/-- The horizontal velocity after the key impulse, in the words of the
specification: the impulse is added, in `double` arithmetic; without an
impulse nothing is added. -/
def impelledX (d : Diver_Sprite) (event : Option SDL_Event) : ℚ :=
  if keyImpulse event = 0 then d.m_velocity_x else fl (d.m_velocity_x + keyImpulse event)

/-- The horizontal velocity after impulse and drag, in the words of the
specification: the velocity after the impulse is divided by 1.2, in `double`
arithmetic. -/
def dampedX (d : Diver_Sprite) (event : Option SDL_Event) : ℚ :=
  fl (d.impelledX event / fl (6 / 5))

/-- The vertical velocity after gravity, in the words of the specification:
1.2 less than before, in `double` arithmetic. -/
def fallenY (d : Diver_Sprite) : ℚ := fl (d.m_velocity_y - fl (6 / 5))

/-- The rectangle after the position update, in the words of the specification:
`left + velocityX` and `top - velocityY`, computed in `double` arithmetic with
the updated velocities and truncated; width and height as before. -/
def movedRect (d : Diver_Sprite) (event : Option SDL_Event) : Rect :=
  { m_x := truncToInt (fl ((d.m_x : ℚ) + d.dampedX event)),
    m_y := truncToInt (fl ((d.m_y : ℚ) - d.fallenY)),
    m_w := d.m_w, m_h := d.m_h }

end Diver_Sprite

/-! ## Scene -/

/-- The class `Game_Scene` (with the `m_width`, `m_height` of its base `Scene`).
The pools `m_clouds` and `m_coins` are in pool order. -/
structure Game_Scene where
  m_width : ℤ
  m_height : ℤ
  m_state : Game_State
  m_clouds : List Cloud_Sprite
  m_coins : List Coin_Sprite
  m_diver : Diver_Sprite
  m_wave : ℤ
  deriving DecidableEq, Repr

namespace Game_Scene

/-- The local `viewport_distance` of `moveViewport()` before its conversion to
`double`: `m_diver->horizontalCenter() - viewport->horizontalCenter()`. -/
def viewportDistance (g : Game_Scene) : ℤ :=
  g.m_diver.toRect.horizontalCenter - g.m_state.m_viewport.horizontalCenter

/-- The method `moveViewport()`. -/
def moveViewport (g : Game_Scene) : Game_Scene :=
  let viewport := g.m_state.m_viewport
  let viewport_distance : ℚ :=
    ((g.m_diver.toRect.horizontalCenter - viewport.horizontalCenter : ℤ) : ℚ)
  let mod : ℤ := truncToInt (viewport_distance / (403 / 10))
  { g with m_state := { g.m_state with m_viewport := viewport.setLeft (viewport.left + mod) } }

/-- The state of the first loop of `think(SDL_Event *event)`, the pass over the
clouds: the clouds already advanced, the diver, the flag `cloud_collide`, the
random stream, and a record, one entry per cloud examined, of whether
`bounceUp()` was called for it. -/
structure CloudPass where
  clouds : List Cloud_Sprite
  diver : Diver_Sprite
  cloud_collide : Bool
  rs : RandomStream
  bounced : List Bool

/-- The pass over the clouds of `think(SDL_Event *event)`, from the loop's
current diver, flag and random stream, over the clouds still to examine. -/
def cloudLoop (state : Game_State) :
    List Cloud_Sprite → Diver_Sprite → Bool → RandomStream → CloudPass
  | [], diver, cloud_collide, rs =>
    { clouds := [], diver := diver, cloud_collide := cloud_collide, rs := rs, bounced := [] }
  | c :: cs, diver, cloud_collide, rs =>
    let hit := !cloud_collide && diver.isFalling && c.isVisible &&
      c.collidesWith diver.toRect
    let diver1 := if hit then diver.bounceUp else diver
    let cloud_collide1 := if hit then true else cloud_collide
    let r := c.think state rs
    let rest := cloudLoop state cs diver1 cloud_collide1 r.2
    { rest with clouds := r.1 :: rest.clouds, bounced := hit :: rest.bounced }

/-- The pass over the clouds as `think(SDL_Event *event)` starts it:
`cloud_collide` is false. -/
def thinkClouds (g : Game_Scene) (rs : RandomStream) : CloudPass :=
  cloudLoop g.m_state g.m_clouds g.m_diver false rs

/-- The clouds after each has been advanced once by `think`, in pool order,
with no diver involved. -/
def advanceClouds (state : Game_State) : List Cloud_Sprite → RandomStream → List Cloud_Sprite
  | [], _ => []
  | c :: cs, rs => (c.think state rs).1 :: advanceClouds state cs (c.think state rs).2

/-- Whether a cloud qualifies for a bounce, in the words of the specification:
the diver is falling, the cloud is visible, and the cloud's rectangle collides
with the diver's. -/
def qualifies (diver : Diver_Sprite) (c : Cloud_Sprite) : Bool :=
  diver.isFalling && c.isVisible && c.collidesWith diver.toRect

/-- For each cloud in pool order, whether it bounces the diver, in the words of
the specification: the first qualifying cloud wins and no other cloud bounces. -/
def firstWins (diver : Diver_Sprite) : List Cloud_Sprite → List Bool
  | [] => []
  | c :: cs =>
    if qualifies diver c then true :: cs.map (fun _ => false)
    else false :: firstWins diver cs

/-- A scene of the 800 by 600 game: viewport `(0, 0, 800, 600)`, four clouds of
160 by 75, ten coins of 32 by 32, and the 40 by 40 diver with its left edge at
`diverLeft` and its top at 280. -/
def sample (diverLeft : ℤ) : Game_Scene :=
  { m_width := 800, m_height := 600,
    m_state := { Game_State.init with m_viewport := ⟨0, 0, 800, 600⟩ },
    m_clouds := List.replicate 4
      { m_x := -158, m_y := 300, m_w := 160, m_h := 75, m_visible := false,
        m_sleep := 30, m_velocity := 3 },
    m_coins := List.replicate 10
      { m_x := 0, m_y := 0, m_w := 32, m_h := 32, m_visible := true,
        m_target_x := 100, m_target_y := 100 },
    m_diver :=
      { m_x := diverLeft, m_y := 280, m_w := 40, m_h := 40, m_visible := true,
        MOVE_RATE := fl (6 / 5), m_velocity_x := 0, m_velocity_y := fl (-(1 / 10)) },
    m_wave := -1 }

end Game_Scene

/-! ## Theorems: geometry -/

/-- C1. `collidesWith` is true exactly when the four strict inequalities hold,
`right` being `x + width` and `bottom` being `y + height`; two rectangles that
meet only at an edge do not collide. -/
theorem collidesWith_iff (A B : Rect) :
    (A.collidesWith B = true ↔
      A.bottom > B.top ∧ A.top < B.bottom ∧ A.right > B.left ∧ A.left < B.right) ∧
    A.right = A.m_x + A.m_w ∧ A.bottom = A.m_y + A.m_h ∧
    A.left = A.m_x ∧ A.top = A.m_y ∧
    (A.right = B.left → A.collidesWith B = false) ∧
    (A.left = B.right → A.collidesWith B = false) ∧
    (A.bottom = B.top → A.collidesWith B = false) ∧
    (A.top = B.bottom → A.collidesWith B = false) := by
  have key : A.collidesWith B = true ↔
      A.bottom > B.top ∧ A.top < B.bottom ∧ A.right > B.left ∧ A.left < B.right := by
    unfold Rect.collidesWith
    split_ifs <;> simp <;> omega
  have off : ∀ {p : Prop}, (A.collidesWith B = true ↔ p) → ¬ p → A.collidesWith B = false := by
    intro p hp hn
    cases h : A.collidesWith B
    · rfl
    · exact absurd (hp.mp h) hn
  refine ⟨key, rfl, rfl, rfl, rfl, ?_, ?_, ?_, ?_⟩
  · intro h; exact off key (by omega)
  · intro h; exact off key (by omega)
  · intro h; exact off key (by omega)
  · intro h; exact off key (by omega)

/-- C2. Collision is symmetric. -/
theorem collidesWith_symm (A B : Rect) : A.collidesWith B = B.collidesWith A := by
  unfold Rect.collidesWith
  split_ifs <;> rfl

/-! ## Lemmas on the conversion to `int` -/

theorem truncToInt_intCast (n : ℤ) : truncToInt (n : ℚ) = n := by
  unfold truncToInt
  split_ifs <;> simp

theorem truncToInt_bounds (a b : ℤ) (q : ℚ) (ha : (a : ℚ) ≤ q) (hb : q ≤ (b : ℚ)) :
    a ≤ truncToInt q ∧ truncToInt q ≤ b := by
  unfold truncToInt
  split_ifs
  · refine ⟨Int.le_floor.mpr ha, ?_⟩
    have h1 : (⌊q⌋ : ℚ) ≤ q := Int.floor_le q
    exact_mod_cast h1.trans hb
  · refine ⟨?_, Int.ceil_le.mpr hb⟩
    have h1 : q ≤ (⌈q⌉ : ℚ) := Int.le_ceil q
    exact_mod_cast ha.trans h1

/-! ## Lemmas on rounding to a `double` -/

theorem roundEven_eq_of_near (t : ℚ) (m : ℤ) (h : |t - m| < 1 / 2) : roundEven t = m := by
  rw [abs_lt] at h
  obtain ⟨h1, h2⟩ := h
  unfold roundEven
  rcases le_or_lt (m : ℚ) t with hm | hm
  · have hf : ⌊t⌋ = m := by
      rw [Int.floor_eq_iff]
      constructor <;> linarith
    rw [hf, if_pos (by linarith)]
  · have hf : ⌊t⌋ = m - 1 := by
      rw [Int.floor_eq_iff]
      push_cast
      constructor <;> linarith
    rw [hf]
    push_cast
    rw [if_neg (by linarith), if_pos (by linarith)]
    ring

theorem roundEven_intCast (n : ℤ) : roundEven (n : ℚ) = n :=
  roundEven_eq_of_near _ n (by simp)

theorem roundEven_cases (t : ℚ) : roundEven t = ⌊t⌋ ∨ roundEven t = ⌊t⌋ + 1 := by
  unfold roundEven
  split_ifs <;> simp

theorem roundEven_error (t : ℚ) : |(roundEven t : ℚ) - t| ≤ 1 / 2 := by
  have h1 : (⌊t⌋ : ℚ) ≤ t := Int.floor_le t
  have h2 : t < ⌊t⌋ + 1 := Int.lt_floor_add_one t
  unfold roundEven
  rw [abs_le]
  split_ifs with a b c
  · constructor <;> linarith
  · push_cast; constructor <;> linarith
  · have : t - ⌊t⌋ = 1 / 2 := le_antisymm (not_lt.mp b) (not_lt.mp a)
    constructor <;> linarith
  · have : t - ⌊t⌋ = 1 / 2 := le_antisymm (not_lt.mp b) (not_lt.mp a)
    push_cast; constructor <;> linarith

theorem roundEven_ge (t : ℚ) (n : ℤ) (h : (n : ℚ) ≤ t) : n ≤ roundEven t := by
  have : n ≤ ⌊t⌋ := Int.le_floor.mpr h
  rcases roundEven_cases t with e | e <;> omega

theorem roundEven_le (t : ℚ) (n : ℤ) (h : t ≤ (n : ℚ)) : roundEven t ≤ n := by
  rcases eq_or_lt_of_le h with e | hlt
  · rw [e, roundEven_intCast]
  · have : ⌊t⌋ < n := Int.floor_lt.mpr hlt
    rcases roundEven_cases t with e | e <;> omega

theorem roundEven_mono (s t : ℚ) (h : s ≤ t) : roundEven s ≤ roundEven t := by
  have hfl : ⌊s⌋ ≤ ⌊t⌋ := Int.floor_mono h
  rcases eq_or_lt_of_le hfl with e | hlt
  · unfold roundEven
    rw [e]
    split_ifs <;> first | omega | (exfalso; linarith)
  · have h1 : roundEven s ≤ ⌊s⌋ + 1 := by rcases roundEven_cases s with e | e <;> omega
    have h2 : ⌊t⌋ ≤ roundEven t := by rcases roundEven_cases t with e | e <;> omega
    omega

theorem roundEven_neg (t : ℚ) : roundEven (-t) = -roundEven t := by
  by_cases hint : (⌊t⌋ : ℚ) = t
  · rw [← hint, ← Int.cast_neg, roundEven_intCast, roundEven_intCast]
  · have h1 : (⌊t⌋ : ℚ) < t := lt_of_le_of_ne (Int.floor_le t) hint
    have h2 : t < ⌊t⌋ + 1 := Int.lt_floor_add_one t
    have hf : ⌊-t⌋ = -⌊t⌋ - 1 := by
      rw [Int.floor_eq_iff]
      push_cast
      constructor <;> linarith
    unfold roundEven
    rw [hf]
    push_cast
    split_ifs <;> first | omega | (exfalso; linarith)

theorem fl_zero : fl 0 = 0 := by simp [fl]

theorem ulpExp_pos (x : ℚ) : (0 : ℚ) < 2 ^ ulpExp x := zpow_pos (by norm_num) _

theorem fl_nonneg (x : ℚ) (h : 0 ≤ x) : 0 ≤ fl x := by
  unfold fl
  split_ifs
  · exact le_refl 0
  · have h0 : (0 : ℤ) ≤ roundEven (x / 2 ^ ulpExp x) :=
      roundEven_ge _ 0 (by simpa using div_nonneg h (ulpExp_pos x).le)
    exact mul_nonneg (by exact_mod_cast h0) (ulpExp_pos x).le

theorem fl_neg (x : ℚ) : fl (-x) = -fl x := by
  unfold fl
  by_cases h : x = 0
  · simp [h]
  · have hu : ulpExp (-x) = ulpExp x := by unfold ulpExp; rw [abs_neg]
    rw [if_neg (neg_ne_zero.mpr h), if_neg h, hu, neg_div, roundEven_neg]
    push_cast
    ring

theorem fl_nonpos (x : ℚ) (h : x ≤ 0) : fl x ≤ 0 := by
  have := fl_nonneg (-x) (by linarith)
  rw [fl_neg] at this
  linarith

theorem log_eq_of_bounds (r : ℚ) (e : ℤ) (h1 : (2 : ℚ) ^ e ≤ r) (h2 : r < (2 : ℚ) ^ (e + 1)) :
    Int.log 2 r = e := by
  have hr : 0 < r := lt_of_lt_of_le (zpow_pos (by norm_num) e) h1
  have a : e ≤ Int.log 2 r := by
    rw [← Int.zpow_le_iff_le_log (by norm_num) hr]
    simpa using h1
  have b : Int.log 2 r < e + 1 := by
    rw [← Int.lt_zpow_iff_log_lt (by norm_num) hr]
    simpa using h2
  omega

theorem fl_eq_of_near (x : ℚ) (e m : ℤ) (he : -1022 ≤ e) (h1 : (2 : ℚ) ^ e ≤ |x|)
    (h2 : |x| < (2 : ℚ) ^ (e + 1)) (h3 : |x / 2 ^ (e - 52) - m| < 1 / 2) :
    fl x = m * 2 ^ (e - 52) := by
  have hx : x ≠ 0 := by
    intro h
    rw [h, abs_zero] at h1
    exact absurd h1 (not_le.mpr (zpow_pos (by norm_num) e))
  have hu : ulpExp x = e - 52 := by
    unfold ulpExp
    rw [log_eq_of_bounds _ e h1 h2, max_eq_left he]
  unfold fl
  rw [if_neg hx, hu, roundEven_eq_of_near _ m h3]

theorem fl_error (x : ℚ) : |fl x - x| ≤ 2 ^ ulpExp x / 2 := by
  unfold fl
  split_ifs with h
  · rw [h]
    simp only [sub_self, abs_zero]
    exact (div_pos (ulpExp_pos 0) (by norm_num)).le
  · have hu := ulpExp_pos x
    have key := roundEven_error (x / 2 ^ ulpExp x)
    have e1 : (roundEven (x / 2 ^ ulpExp x) : ℚ) * 2 ^ ulpExp x - x
        = ((roundEven (x / 2 ^ ulpExp x) : ℚ) - x / 2 ^ ulpExp x) * 2 ^ ulpExp x := by
      field_simp
    rw [e1, abs_mul, abs_of_pos hu]
    calc |(roundEven (x / 2 ^ ulpExp x) : ℚ) - x / 2 ^ ulpExp x| * 2 ^ ulpExp x
        ≤ 1 / 2 * 2 ^ ulpExp x := mul_le_mul_of_nonneg_right key hu.le
      _ = 2 ^ ulpExp x / 2 := by ring

theorem fl_intCast (n : ℤ) (h : |n| < 2 ^ 53) : fl (n : ℚ) = n := by
  by_cases h0 : n = 0
  · rw [h0]; simp [fl]
  · have hn : (n : ℚ) ≠ 0 := by exact_mod_cast h0
    have hexp : ulpExp (n : ℚ) ≤ 0 := by
      unfold ulpExp
      have hpos : (0 : ℚ) < |(n : ℚ)| := abs_pos.mpr hn
      have : Int.log 2 |(n : ℚ)| < 53 := by
        rw [← Int.lt_zpow_iff_log_lt (by norm_num) hpos]
        have : |(n : ℚ)| < 2 ^ 53 := by exact_mod_cast h
        norm_num at this ⊢
        linarith
      omega
    obtain ⟨k, hk⟩ : ∃ k : ℕ, ulpExp (n : ℚ) = -(k : ℤ) := ⟨(-ulpExp (n : ℚ)).toNat, by omega⟩
    unfold fl
    rw [if_neg hn, hk, zpow_neg, zpow_natCast]
    have hint : (n : ℚ) / ((2 : ℚ) ^ k)⁻¹ = ((n * 2 ^ k : ℤ) : ℚ) := by
      push_cast
      field_simp
    rw [hint, roundEven_intCast]
    push_cast
    field_simp

theorem fl_le_top (x : ℚ) (hx : 0 < x) : fl x ≤ 2 ^ (ulpExp x + 53) := by
  have hu := ulpExp_pos x
  have hlt : x < 2 ^ (ulpExp x + 53) := by
    have h1 : x < (2 : ℚ) ^ (Int.log 2 |x| + 1) := by
      have := Int.lt_zpow_succ_log_self (b := 2) (by norm_num) |x|
      rw [abs_of_pos hx] at this ⊢
      simpa using this
    have h2 : (2 : ℚ) ^ (Int.log 2 |x| + 1) ≤ 2 ^ (ulpExp x + 53) :=
      zpow_le_zpow_right₀ (by norm_num) (by unfold ulpExp; omega)
    exact lt_of_lt_of_le h1 h2
  have hq : x / 2 ^ ulpExp x ≤ ((2 ^ 53 : ℤ) : ℚ) := by
    rw [div_le_iff₀ hu]
    have : (2 : ℚ) ^ (ulpExp x + 53) = ((2 ^ 53 : ℤ) : ℚ) * 2 ^ ulpExp x := by
      rw [zpow_add₀ (by norm_num)]
      push_cast
      norm_num
      ring
    linarith
  have hr := roundEven_le _ _ hq
  unfold fl
  rw [if_neg hx.ne']
  have : (2 : ℚ) ^ (ulpExp x + 53) = ((2 ^ 53 : ℤ) : ℚ) * 2 ^ ulpExp x := by
    rw [zpow_add₀ (by norm_num)]
    push_cast
    norm_num
    ring
  rw [this]
  exact mul_le_mul_of_nonneg_right (by exact_mod_cast hr) hu.le

theorem fl_ge_bottom (y : ℚ) (hy : 0 < y) (hn : -1022 < Int.log 2 |y|) :
    2 ^ (ulpExp y + 52) ≤ fl y := by
  have hu := ulpExp_pos y
  have hue : ulpExp y + 52 = Int.log 2 |y| := by unfold ulpExp; omega
  have hle : (2 : ℚ) ^ (ulpExp y + 52) ≤ y := by
    rw [hue]
    have := Int.zpow_log_le_self (b := 2) (r := |y|) (by norm_num) (abs_pos.mpr hy.ne')
    rw [abs_of_pos hy] at this ⊢
    simpa using this
  have hsplit : (2 : ℚ) ^ (ulpExp y + 52) = ((2 ^ 52 : ℤ) : ℚ) * 2 ^ ulpExp y := by
    rw [zpow_add₀ (by norm_num)]
    push_cast
    norm_num
    ring
  have hq : ((2 ^ 52 : ℤ) : ℚ) ≤ y / 2 ^ ulpExp y := by
    rw [le_div_iff₀ hu]
    linarith
  have hr := roundEven_ge _ _ hq
  unfold fl
  rw [if_neg hy.ne', hsplit]
  exact mul_le_mul_of_nonneg_right (by exact_mod_cast hr) hu.le

theorem fl_mono_pos (x y : ℚ) (hx : 0 < x) (h : x ≤ y) : fl x ≤ fl y := by
  have hy : 0 < y := lt_of_lt_of_le hx h
  have hlog : Int.log 2 |x| ≤ Int.log 2 |y| := by
    rw [abs_of_pos hx, abs_of_pos hy]
    exact Int.log_mono_right hx h
  have hule : ulpExp x ≤ ulpExp y := by unfold ulpExp; omega
  rcases eq_or_lt_of_le hule with e | hlt
  · unfold fl
    rw [if_neg hx.ne', if_neg hy.ne', e]
    have hu := ulpExp_pos y
    have hq : x / 2 ^ ulpExp y ≤ y / 2 ^ ulpExp y := div_le_div_of_nonneg_right h hu.le
    have := roundEven_mono _ _ hq
    exact mul_le_mul_of_nonneg_right (by exact_mod_cast this) hu.le
  · have hn : -1022 < Int.log 2 |y| := by
      unfold ulpExp at hlt
      omega
    calc fl x ≤ 2 ^ (ulpExp x + 53) := fl_le_top x hx
      _ ≤ 2 ^ (ulpExp y + 52) := zpow_le_zpow_right₀ (by norm_num) (by omega)
      _ ≤ fl y := fl_ge_bottom y hy hn

theorem fl_mono (x y : ℚ) (h : x ≤ y) : fl x ≤ fl y := by
  rcases lt_trichotomy 0 x with hx | hx | hx
  · exact fl_mono_pos x y hx h
  · rw [← hx, fl_zero]
    exact fl_nonneg y (by linarith)
  · rcases le_or_lt 0 y with hy | hy
    · exact (fl_nonpos x hx.le).trans (fl_nonneg y hy)
    · have := fl_mono_pos (-y) (-x) (by linarith) (by linarith)
      rw [fl_neg, fl_neg] at this
      linarith

theorem fl_error_of_lt (x : ℚ) (k : ℤ) (hk : -1022 ≤ k) (h : |x| < 2 ^ (k + 1)) :
    |fl x - x| ≤ 2 ^ (k - 53) := by
  by_cases hx0 : x = 0
  · rw [hx0, fl_zero, sub_zero, abs_zero]
    exact (zpow_pos (by norm_num) _).le
  · have hb := fl_error x
    have hx : 0 < |x| := abs_pos.mpr hx0
    have hexp : ulpExp x ≤ k - 52 := by
      unfold ulpExp
      have := (Int.lt_zpow_iff_log_lt (b := 2) (by norm_num) hx (x := k + 1)).mp
        (by simpa using h)
      omega
    have h1 : (2 : ℚ) ^ ulpExp x ≤ 2 ^ (k - 52) := zpow_le_zpow_right₀ (by norm_num) hexp
    have h2 : (2 : ℚ) ^ (k - 52) = 2 ^ (k - 53) * 2 := by
      rw [show k - 52 = k - 53 + 1 by ring, zpow_add₀ (by norm_num)]
      norm_num
    linarith

theorem fl_six_fifths : fl (6 / 5) = 5404319552844595 / 4503599627370496 := by
  rw [fl_eq_of_near (6 / 5) 0 5404319552844595 (by norm_num) (by norm_num [abs_of_pos])
    (by norm_num [abs_of_pos]) (by rw [abs_lt]; norm_num)]
  norm_num

theorem fl_move_rate_products :
    fl (fl (6 / 5) * (5 / 2)) = 3 ∧ fl (fl (6 / 5) * 15) = 18 ∧
    fl (fl (6 / 5) * 20) = 24 ∧ fl (0 - fl (fl (6 / 5) * 20)) = -24 ∧
    fl (fl (6 / 5) * 25) = 30 := by
  have h3 : fl (fl (6 / 5) * (5 / 2)) = 3 := by
    rw [fl_six_fifths, fl_eq_of_near _ 1 (3 * 2 ^ 51) (by norm_num)
      (by norm_num [abs_of_pos]) (by norm_num [abs_of_pos]) (by rw [abs_lt]; norm_num)]
    norm_num
  have h18 : fl (fl (6 / 5) * 15) = 18 := by
    rw [fl_six_fifths, fl_eq_of_near _ 4 (18 * 2 ^ 48) (by norm_num)
      (by norm_num [abs_of_pos]) (by norm_num [abs_of_pos]) (by rw [abs_lt]; norm_num)]
    norm_num
  have h24 : fl (fl (6 / 5) * 20) = 24 := by
    rw [fl_six_fifths, fl_eq_of_near _ 4 (24 * 2 ^ 48) (by norm_num)
      (by norm_num [abs_of_pos]) (by norm_num [abs_of_pos]) (by rw [abs_lt]; norm_num)]
    norm_num
  have h30 : fl (fl (6 / 5) * 25) = 30 := by
    rw [fl_six_fifths, fl_eq_of_near _ 4 (30 * 2 ^ 48) (by norm_num)
      (by norm_num [abs_of_pos]) (by norm_num [abs_of_pos]) (by rw [abs_lt]; norm_num)]
    norm_num
  have hn24 : fl (0 - fl (fl (6 / 5) * 20)) = -24 := by
    rw [h24, zero_sub, fl_neg]
    have := fl_intCast 24 (by norm_num)
    simp only [Int.cast_ofNat] at this
    rw [this]
  exact ⟨h3, h18, h24, hn24, h30⟩

theorem fl_chain_time : |fl (11 / 10) - 11 / 10| ≤ 1 / 2 ^ 53 := by
  have h := fl_error_of_lt (11 / 10) 0 (by norm_num) (by norm_num [abs_of_pos])
  have e : (2 : ℚ) ^ ((0 : ℤ) - 53) = 1 / 2 ^ 53 := by norm_num [zpow_neg]
  rwa [e] at h

/-- Ten times `x += 1.1` in `double`, from a clock reading of magnitude at most
`2 ^ 31`: after `n ≤ 10` additions the sum is within `n / 2 ^ 21` of the exact
one. -/
theorem fl_add_chain_time (t : ℚ) (ht : |t| ≤ 2 ^ 31) (n : ℕ) (hn : n ≤ 10) :
    |(fun x => fl (x + fl (11 / 10)))^[n] t - (t + n * (11 / 10))| ≤ n / 2 ^ 21 := by
  induction n with
  | zero => simp
  | succ n ih =>
    have ih := ih (by omega)
    rw [Function.iterate_succ_apply']
    generalize (fun x => fl (x + fl (11 / 10)))^[n] t = y at ih ⊢
    have hc := fl_chain_time
    have hn9 : (n : ℚ) ≤ 9 := by exact_mod_cast (by omega : n ≤ 9)
    have hn0 : (0 : ℚ) ≤ n := by exact_mod_cast Nat.zero_le n
    rw [abs_le] at ih hc ht
    have hz : |y + fl (11 / 10)| < 2 ^ ((31 : ℤ) + 1) := by
      rw [abs_lt]
      norm_num at ih hc ht ⊢
      constructor <;> nlinarith
    have he := fl_error_of_lt (y + fl (11 / 10)) 31 (by norm_num) hz
    have e : (2 : ℚ) ^ ((31 : ℤ) - 53) = 1 / 2 ^ 22 := by norm_num [zpow_neg]
    rw [e, abs_le] at he
    show |fl (y + fl (11 / 10)) - (t + ((n + 1 : ℕ) : ℚ) * (11 / 10))| ≤ ((n + 1 : ℕ) : ℚ) / 2 ^ 21
    rw [abs_le]
    push_cast
    norm_num at ih hc he ⊢
    constructor <;> linarith

/-- Ten times `x += 1.1` in `double` from a clock reading `t` of magnitude at most
`2 ^ 31` end within 0.001 of `t + 11`, and `(x - t) / 2`, computed in `double`
from that sum, lies strictly between 5 and 6. -/
theorem fl_chain_after_ten (t : ℚ) (ht : |t| ≤ 2 ^ 31) :
    |(fun x => fl (x + fl (11 / 10)))^[10] t - (t + 11)| ≤ 1 / 1000 ∧
    5 < fl (fl ((fun x => fl (x + fl (11 / 10)))^[10] t - t) / 2) ∧
    fl (fl ((fun x => fl (x + fl (11 / 10)))^[10] t - t) / 2) < 6 := by
  have h := fl_add_chain_time t ht 10 (le_refl _)
  generalize (fun x => fl (x + fl (11 / 10)))^[10] t = y at h ⊢
  rw [abs_le] at h
  norm_num at h
  have hd : |y - t| < 2 ^ ((3 : ℤ) + 1) := by
    rw [abs_lt]
    norm_num
    constructor <;> linarith
  have h1 := fl_error_of_lt (y - t) 3 (by norm_num) hd
  have e1 : (2 : ℚ) ^ ((3 : ℤ) - 53) = 1 / 2 ^ 50 := by norm_num [zpow_neg]
  rw [e1, abs_le] at h1
  norm_num at h1
  have hq : |fl (y - t) / 2| < 2 ^ ((2 : ℤ) + 1) := by
    rw [abs_lt]
    norm_num
    constructor <;> linarith
  have h2 := fl_error_of_lt (fl (y - t) / 2) 2 (by norm_num) hq
  have e2 : (2 : ℚ) ^ ((2 : ℤ) - 53) = 1 / 2 ^ 51 := by norm_num [zpow_neg]
  rw [e2, abs_le] at h2
  norm_num at h2
  refine ⟨?_, ?_, ?_⟩
  · rw [abs_le]
    constructor <;> linarith
  · linarith
  · linarith

/-! ## Theorems: clock and score state -/

theorem coinMultiplier_bounds (s : Game_State) :
    1 ≤ s.coinMultiplier ∧ s.coinMultiplier ≤ 10 := by
  unfold Game_State.coinMultiplier
  simp only
  split_ifs with h1 h2
  · norm_num
  · norm_num
  · exact ⟨not_lt.mp h1, not_lt.mp h2⟩

/-- C3. `coinMultiplier()` is `(chainExpire - now) / 2` clamped to `[1, 10]`, so
its result always lies between 1 and 10. -/
theorem coinMultiplier_clamped (s : Game_State) :
    s.coinMultiplier = max 1 (min 10 ((s.m_chain_expire - s.m_now) / 2)) ∧
    1 ≤ s.coinMultiplier ∧ s.coinMultiplier ≤ 10 := by
  refine ⟨?_, coinMultiplier_bounds s⟩
  unfold Game_State.coinMultiplier
  simp only
  split_ifs with h1 h2
  · rw [max_eq_left]
    exact (min_le_right _ _).trans h1.le
  · rw [min_eq_left h2.le]
    norm_num
  · rw [min_eq_right (not_lt.mp h2), max_eq_right (not_lt.mp h1)]

theorem collectCoin_chain_expire (s : Game_State) :
    s.collectCoin.2.m_chain_expire = s.m_chain_expire + s.m_chain_time ∧
    s.collectCoin.2.m_now = s.m_now ∧
    s.collectCoin.2.m_chain_time = s.m_chain_time := ⟨rfl, rfl, rfl⟩

theorem collectCoinTimes_fields (s : Game_State) (n : ℕ) :
    (s.collectCoinTimes n).m_chain_expire = s.m_chain_expire + n * s.m_chain_time ∧
    (s.collectCoinTimes n).m_now = s.m_now ∧
    (s.collectCoinTimes n).m_chain_time = s.m_chain_time := by
  induction n with
  | zero => simp [Game_State.collectCoinTimes]
  | succ n ih =>
    obtain ⟨h1, h2, h3⟩ := ih
    obtain ⟨c1, c2, c3⟩ := collectCoin_chain_expire (s.collectCoinTimes n)
    refine ⟨?_, ?_, ?_⟩
    · show (s.collectCoinTimes n).collectCoin.2.m_chain_expire = _
      rw [c1, h1, h3]
      push_cast
      ring
    · show (s.collectCoinTimes n).collectCoin.2.m_now = _
      rw [c2, h2]
    · show (s.collectCoinTimes n).collectCoin.2.m_chain_time = _
      rw [c3, h3]

theorem coinMultiplier_after (s : Game_State) (n : ℕ)
    (ht : s.m_chain_time = 11 / 10) (h : s.m_chain_expire = s.m_now) :
    (s.collectCoinTimes n).coinMultiplier =
      if (n : ℚ) * 11 / 20 < 1 then 1
      else if (n : ℚ) * 11 / 20 > 10 then 10 else (n : ℚ) * 11 / 20 := by
  obtain ⟨h1, h2, -⟩ := collectCoinTimes_fields s n
  have hm : ((s.collectCoinTimes n).m_chain_expire - (s.collectCoinTimes n).m_now) / 2
      = (n : ℚ) * 11 / 20 := by
    rw [h1, h2, ht, h]
    ring
  unfold Game_State.coinMultiplier
  simp only [hm]

/-- C5. From `chainExpire == now`, among ten `collectCoin()` calls in immediate
succession the `k`-th returns true exactly when `k = 10`. -/
theorem collectCoin_first_true (s : Game_State) (k : ℕ)
    (ht : s.m_chain_time = 11 / 10) (h : s.m_chain_expire = s.m_now)
    (h1 : 1 ≤ k) (h10 : k ≤ 10) :
    s.collectCoinResult k = true ↔ k = 10 := by
  have hk : s.collectCoinResult k = decide ((s.collectCoinTimes k).coinMultiplier > 5) := by
    obtain ⟨j, rfl⟩ : ∃ j, k = j + 1 := ⟨k - 1, by omega⟩
    rfl
  rw [hk, coinMultiplier_after s k ht h, decide_eq_true_iff]
  interval_cases k <;> norm_num

/-- C5, at the state `Game_State()` builds: the tenth call returns true. -/
theorem collectCoin_first_true_witness :
    Game_State.init.collectCoinResult 10 = true :=
  (collectCoin_first_true Game_State.init 10 rfl rfl (by decide) (by decide)).mpr rfl

/-- C6, as stated, fails: after ten successive `collectCoin()` calls on the state
`Game_State()` builds (where `chainExpire == now`), `coinMultiplier()` returns a
value below 6, not the cap 10. -/
theorem coinMultiplier_after_ten_not_capped :
    Game_State.init.m_chain_expire = Game_State.init.m_now ∧
    (Game_State.init.collectCoinTimes 10).coinMultiplier < 6 ∧
    (Game_State.init.collectCoinTimes 10).coinMultiplier ≠ 10 := by
  have h := coinMultiplier_after Game_State.init 10 rfl rfl
  have h' : (Game_State.init.collectCoinTimes 10).coinMultiplier = 11 / 2 := by
    rw [h]; norm_num
  refine ⟨rfl, ?_, ?_⟩ <;> rw [h'] <;> norm_num

/-- C6, amended. From `chainExpire == now`, ten `collectCoin()` calls in immediate
succession leave `now` unchanged and bring `chainExpire` to within 0.001 of
`now + 11`; `coinMultiplier()` then lies strictly between 5 and 6, below the cap
10, and it does so in every state whose `chainExpire` is within 0.001 of
`now + 11`.  The values are given with a margin, not as `now + 11` and 5.5,
because the program rounds each of the ten additions of 1.1.  The last conjunct
is that rounding: ten additions `x += 1.1` in `double` from a clock reading `t`
with `|t| ≤ 2 ^ 31` end within 0.001 of `t + 11`, and `(x - t) / 2` computed in
`double` from that sum lies strictly between 5 and 6. -/
theorem collectCoin_ten_times (s : Game_State)
    (ht : s.m_chain_time = 11 / 10) (h : s.m_chain_expire = s.m_now) :
    (s.collectCoinTimes 10).m_now = s.m_now ∧
    |(s.collectCoinTimes 10).m_chain_expire - (s.m_now + 11)| ≤ 1 / 1000 ∧
    5 < (s.collectCoinTimes 10).coinMultiplier ∧
    (s.collectCoinTimes 10).coinMultiplier < 6 ∧
    (s.collectCoinTimes 10).coinMultiplier < 10 ∧
    (∀ s' : Game_State, |s'.m_chain_expire - (s'.m_now + 11)| ≤ 1 / 1000 →
      5 < s'.coinMultiplier ∧ s'.coinMultiplier < 6) ∧
    (∀ t : ℚ, |t| ≤ 2 ^ 31 →
      |(fun x => fl (x + fl (11 / 10)))^[10] t - (t + 11)| ≤ 1 / 1000 ∧
      5 < fl (fl ((fun x => fl (x + fl (11 / 10)))^[10] t - t) / 2) ∧
      fl (fl ((fun x => fl (x + fl (11 / 10)))^[10] t - t) / 2) < 6) := by
  obtain ⟨h1, h2, -⟩ := collectCoinTimes_fields s 10
  have hr : ∀ s' : Game_State, |s'.m_chain_expire - (s'.m_now + 11)| ≤ 1 / 1000 →
      5 < s'.coinMultiplier ∧ s'.coinMultiplier < 6 := by
    intro s' hs
    rw [abs_le] at hs
    obtain ⟨ha, hb⟩ := hs
    unfold Game_State.coinMultiplier
    simp only []
    split_ifs with c1 c2
    · linarith
    · linarith
    · constructor <;> linarith
  have hce : |(s.collectCoinTimes 10).m_chain_expire - (s.m_now + 11)| ≤ 1 / 1000 := by
    rw [h1, ht, h]
    norm_num
  have hm := hr (s.collectCoinTimes 10) (by rw [h2]; exact hce)
  exact ⟨h2, hce, hm.1, hm.2, by linarith [hm.2], hr, fl_chain_after_ten⟩

/-- C6 amended, at the state `Game_State()` builds. -/
theorem collectCoin_ten_times_witness :
    |(Game_State.init.collectCoinTimes 10).m_chain_expire - (Game_State.init.m_now + 11)|
        ≤ 1 / 1000 ∧
    5 < (Game_State.init.collectCoinTimes 10).coinMultiplier ∧
    (Game_State.init.collectCoinTimes 10).coinMultiplier < 6 :=
  ⟨(collectCoin_ten_times Game_State.init rfl rfl).2.1,
    (collectCoin_ten_times Game_State.init rfl rfl).2.2.1,
    (collectCoin_ten_times Game_State.init rfl rfl).2.2.2.1⟩

theorem think_fields (s : Game_State) (e : Option SDL_Event) (t : ℚ) :
    (s.think e t).m_now = t ∧
    (s.think e t).m_chain_expire = (if s.m_chain_expire < t then t else s.m_chain_expire) ∧
    (s.think e t).m_score = s.m_score ∧
    (s.think e t).m_chain_time = s.m_chain_time := by
  unfold Game_State.think
  simp only
  split_ifs <;> simp

theorem coinMultiplier_idle (s : Game_State) (h : s.m_chain_expire = s.m_now) :
    s.isCoinChained = false ∧ s.coinMultiplier = 1 := by
  unfold Game_State.isCoinChained Game_State.coinMultiplier
  rw [h]
  norm_num

theorem thinkAll_idle (fs : List (Option SDL_Event × ℚ)) :
    ∀ (s : Game_State), s.m_chain_expire = s.m_now →
      List.Chain (fun a b => a ≤ b) s.m_now (fs.map Prod.snd) →
      (s.thinkAll fs).m_chain_expire = (s.thinkAll fs).m_now := by
  induction fs with
  | nil => intro s h _; exact h
  | cons f fs ih =>
    intro s h hc
    rw [List.map_cons, List.chain_cons] at hc
    obtain ⟨hn, hce, -, -⟩ := think_fields s f.1 f.2
    apply ih (s.think f.1 f.2)
    · rw [hn, hce]
      split_ifs with hlt
      · rfl
      · exact le_antisymm (by rw [h]; exact hc.1) (not_lt.mp hlt)
    · rw [hn]; exact hc.2

/-- C7. After `think` sets `now` to `t`, `chainExpire >= t`, and `chainExpire == t`
when it was at most `t` before.  So once `chainExpire == now`, any run of frame
advances at non-decreasing clock readings, with no `collectCoin()`, keeps
`chainExpire == now` after every frame: the chain is inactive and the
multiplier is 1. -/
theorem think_chain_floor :
    (∀ (s : Game_State) (e : Option SDL_Event) (t : ℚ),
      (s.think e t).m_now = t ∧ t ≤ (s.think e t).m_chain_expire ∧
      (s.m_chain_expire ≤ t → (s.think e t).m_chain_expire = t)) ∧
    (∀ (s : Game_State) (fs : List (Option SDL_Event × ℚ)) (n : ℕ),
      s.m_chain_expire = s.m_now →
      List.Chain (fun a b => a ≤ b) s.m_now (fs.map Prod.snd) →
      (s.thinkAll (fs.take n)).m_chain_expire = (s.thinkAll (fs.take n)).m_now ∧
      (s.thinkAll (fs.take n)).isCoinChained = false ∧
      (s.thinkAll (fs.take n)).coinMultiplier = 1) := by
  constructor
  · intro s e t
    obtain ⟨hn, hce, -, -⟩ := think_fields s e t
    refine ⟨hn, ?_, ?_⟩
    · rw [hce]
      split_ifs with hlt
      · exact le_refl t
      · exact not_lt.mp hlt
    · intro hle
      rw [hce]
      split_ifs with hlt
      · rfl
      · exact le_antisymm hle (not_lt.mp hlt)
  · intro s fs n h hc
    have hc' : List.Chain (fun a b => a ≤ b) s.m_now ((fs.take n).map Prod.snd) := by
      rw [List.map_take]
      exact List.Chain.sublist hc (List.take_sublist n _)
    have key := thinkAll_idle (fs.take n) s h hc'
    exact ⟨key, coinMultiplier_idle _ key⟩

/-- C8. From the state `Game_State()` builds, every sequence of `think` and
`collectCoin()` calls leaves `score >= 0`; no call lowers the score; `think`
leaves it unchanged; each `collectCoin()` raises it by at least 1 and at most
10. -/
theorem score_monotone :
    (∀ calls : List Game_State.Call, 0 ≤ (Game_State.init.run calls).m_score) ∧
    (∀ (s : Game_State) (c : Game_State.Call), s.m_score ≤ (s.step c).m_score) ∧
    (∀ (s : Game_State) (e : Option SDL_Event) (t : ℚ), (s.think e t).m_score = s.m_score) ∧
    (∀ s : Game_State, s.m_score + 1 ≤ s.collectCoin.2.m_score ∧
      s.collectCoin.2.m_score ≤ s.m_score + 10) := by
  have hthink : ∀ (s : Game_State) (e : Option SDL_Event) (t : ℚ),
      (s.think e t).m_score = s.m_score := fun s e t => (think_fields s e t).2.2.1
  have hcollect : ∀ s : Game_State, s.m_score + 1 ≤ s.collectCoin.2.m_score ∧
      s.collectCoin.2.m_score ≤ s.m_score + 10 := by
    intro s
    show s.m_score + 1 ≤ truncToInt ((s.m_score : ℚ) + 1 *
        ({ s with m_chain_expire := s.m_chain_expire + s.m_chain_time } : Game_State).coinMultiplier)
      ∧ truncToInt ((s.m_score : ℚ) + 1 *
        ({ s with m_chain_expire := s.m_chain_expire + s.m_chain_time } : Game_State).coinMultiplier)
        ≤ s.m_score + 10
    obtain ⟨hlo, hhi⟩ := coinMultiplier_bounds
      ({ s with m_chain_expire := s.m_chain_expire + s.m_chain_time } : Game_State)
    apply truncToInt_bounds
    · push_cast; linarith
    · push_cast; linarith
  have hstep : ∀ (s : Game_State) (c : Game_State.Call), s.m_score ≤ (s.step c).m_score := by
    intro s c
    cases c with
    | think e t => exact (hthink s e t).ge
    | collectCoin => have := (hcollect s).1; show s.m_score ≤ s.collectCoin.2.m_score; omega
  refine ⟨?_, hstep, hthink, hcollect⟩
  intro calls
  have gen : ∀ (cs : List Game_State.Call) (s : Game_State),
      0 ≤ s.m_score → 0 ≤ (s.run cs).m_score := by
    intro cs
    induction cs with
    | nil => intro s hs; exact hs
    | cons c cs ih =>
      intro s hs
      exact ih (s.step c) (hs.trans (hstep s c))
  exact gen calls Game_State.init (le_refl 0)

/-- C7, on two idle frames after the state `Game_State()` builds. -/
theorem think_chain_floor_witness :
    (Game_State.init.thinkAll [(none, 1), (none, 2)]).m_chain_expire =
      (Game_State.init.thinkAll [(none, 1), (none, 2)]).m_now :=
  (think_chain_floor.2 Game_State.init [(none, 1), (none, 2)] 2 rfl
    (by simp [Game_State.init])).1

/-! ## Theorems: camera -/

theorem truncToInt_div_403 (d : ℤ) :
    truncToInt ((d : ℚ) / (403 / 10)) = Int.tdiv (10 * d) 403 := by
  have hq : (d : ℚ) / (403 / 10) = ((10 * d : ℤ) : ℚ) / ((403 : ℕ) : ℚ) := by
    push_cast
    field_simp
    ring
  unfold truncToInt
  rw [hq]
  split_ifs with h
  · have hd : 0 ≤ 10 * d := by
      by_contra hneg
      have : ((10 * d : ℤ) : ℚ) < 0 := by exact_mod_cast not_le.mp hneg
      have : ((10 * d : ℤ) : ℚ) / ((403 : ℕ) : ℚ) < 0 := div_neg_of_neg_of_pos this (by norm_num)
      exact absurd h (not_le.mpr this)
    rw [Rat.floor_intCast_div_natCast, Int.tdiv_eq_ediv hd (by norm_num)]
    rfl
  · have hd : 10 * d < 0 := by
      by_contra hpos
      have : (0 : ℚ) ≤ ((10 * d : ℤ) : ℚ) := by exact_mod_cast not_lt.mp hpos
      exact h (div_nonneg this (by norm_num))
    have hneg : ((10 * d : ℤ) : ℚ) / ((403 : ℕ) : ℚ)
        = -(((-(10 * d) : ℤ) : ℚ) / ((403 : ℕ) : ℚ)) := by
      push_cast
      ring
    rw [hneg, Int.ceil_neg, Rat.floor_intCast_div_natCast,
      ← Int.tdiv_eq_ediv (by omega) (by norm_num), Int.neg_tdiv, neg_neg]
    rfl

theorem tdiv_403_bounds (d : ℤ) :
    (0 ≤ d → 0 ≤ Int.tdiv (10 * d) 403 ∧ 403 * Int.tdiv (10 * d) 403 ≤ 10 * d ∧
      10 * d < 403 * (Int.tdiv (10 * d) 403 + 1)) ∧
    (d ≤ 0 → Int.tdiv (10 * d) 403 ≤ 0 ∧ 10 * d ≤ 403 * Int.tdiv (10 * d) 403 ∧
      403 * (Int.tdiv (10 * d) 403 - 1) < 10 * d) := by
  constructor
  · intro h
    rw [Int.tdiv_eq_ediv (by omega) (by norm_num)]
    omega
  · intro h
    have e : Int.tdiv (10 * d) 403 = -((-(10 * d)) / 403) := by
      rw [← Int.tdiv_eq_ediv (by omega) (by norm_num), Int.neg_tdiv, neg_neg]
    rw [e]
    omega

theorem moveViewport_eq (g : Game_Scene) :
    g.moveViewport =
      { g with m_state := { g.m_state with m_viewport :=
          { g.m_state.m_viewport with
            m_x := g.m_state.m_viewport.m_x + Int.tdiv (10 * g.viewportDistance) 403 } } } := by
  unfold Game_Scene.moveViewport
  simp only
  rw [truncToInt_div_403]
  rfl

theorem moveViewport_distance (g : Game_Scene) :
    g.moveViewport.viewportDistance =
      g.viewportDistance - Int.tdiv (10 * g.viewportDistance) 403 := by
  rw [moveViewport_eq]
  unfold Game_Scene.viewportDistance Rect.horizontalCenter
  simp only
  ring

/-- C10. One `moveViewport` step changes only the viewport's left edge, by
`trunc(d / 40.3)` for the gap `d` between the diver's and the viewport's
horizontal centres, and the new gap is no larger in absolute value and has the
sign of the old one. -/
theorem moveViewport_no_overshoot (g : Game_Scene) :
    g.moveViewport =
      { g with m_state := { g.m_state with m_viewport :=
          { g.m_state.m_viewport with
            m_x := g.m_state.m_viewport.m_x +
              truncToInt ((g.viewportDistance : ℚ) / (403 / 10)) } } } ∧
    g.moveViewport.viewportDistance =
      g.viewportDistance - truncToInt ((g.viewportDistance : ℚ) / (403 / 10)) ∧
    |g.moveViewport.viewportDistance| ≤ |g.viewportDistance| ∧
    (0 ≤ g.viewportDistance → 0 ≤ g.moveViewport.viewportDistance) ∧
    (g.viewportDistance ≤ 0 → g.moveViewport.viewportDistance ≤ 0) := by
  obtain ⟨hpos, hneg⟩ := tdiv_403_bounds g.viewportDistance
  have hd := moveViewport_distance g
  refine ⟨rfl, ?_, ?_, ?_, ?_⟩
  · rw [hd, truncToInt_div_403]
  · rw [hd]
    rcases le_total 0 g.viewportDistance with h | h
    · obtain ⟨h1, h2, h3⟩ := hpos h
      rw [abs_of_nonneg (by omega), abs_of_nonneg h]
      omega
    · obtain ⟨h1, h2, h3⟩ := hneg h
      rw [abs_of_nonpos (by omega), abs_of_nonpos h]
      omega
  · intro h
    obtain ⟨h1, h2, h3⟩ := hpos h
    rw [hd]
    omega
  · intro h
    obtain ⟨h1, h2, h3⟩ := hneg h
    rw [hd]
    omega

/-- C9, as stated, fails: in the 800 by 600 scene with the diver one pixel right
of centre the gap is 1, `moveViewport` leaves the viewport where it is, and the
gap is still 1. -/
theorem moveViewport_gap_one_stays :
    (Game_Scene.sample 381).viewportDistance = 1 ∧
    (Game_Scene.sample 381).moveViewport = Game_Scene.sample 381 ∧
    (Game_Scene.sample 381).moveViewport.viewportDistance = 1 ∧
    ¬ (|(Game_Scene.sample 381).moveViewport.viewportDistance| <
        |(Game_Scene.sample 381).viewportDistance|) := by
  have h0 : (Game_Scene.sample 381).viewportDistance = 1 := by decide
  have h1 : (Game_Scene.sample 381).moveViewport = Game_Scene.sample 381 := by
    rw [moveViewport_eq, h0]
    rfl
  refine ⟨h0, h1, ?_, ?_⟩
  · rw [h1, h0]
  · rw [h1]
    exact lt_irrefl _

/-- C9, amended. `moveViewport` never touches the diver, and one step makes the
absolute gap strictly smaller exactly when the gap is at least 41 in absolute
value (beyond 40.3, so that the truncated step is not zero); for a gap of at
most 40 in absolute value the step is zero and the scene is unchanged. -/
theorem moveViewport_strict_iff (g : Game_Scene) :
    g.moveViewport.m_diver = g.m_diver ∧
    (|g.moveViewport.viewportDistance| < |g.viewportDistance| ↔
      41 ≤ |g.viewportDistance|) ∧
    (|g.viewportDistance| ≤ 40 → g.moveViewport = g) := by
  obtain ⟨hpos, hneg⟩ := tdiv_403_bounds g.viewportDistance
  have hd := moveViewport_distance g
  refine ⟨rfl, ?_, ?_⟩
  · rw [hd]
    rcases le_total 0 g.viewportDistance with h | h
    · obtain ⟨h1, h2, h3⟩ := hpos h
      rw [abs_of_nonneg (by omega), abs_of_nonneg h]
      omega
    · obtain ⟨h1, h2, h3⟩ := hneg h
      rw [abs_of_nonpos (by omega), abs_of_nonpos h]
      omega
  · intro h40
    have hk : Int.tdiv (10 * g.viewportDistance) 403 = 0 := by
      rcases le_total 0 g.viewportDistance with h | h
      · obtain ⟨h1, h2, h3⟩ := hpos h
        rw [abs_of_nonneg h] at h40
        omega
      · obtain ⟨h1, h2, h3⟩ := hneg h
        rw [abs_of_nonpos h] at h40
        omega
    rw [moveViewport_eq, hk, add_zero]

/-- C9 amended, in the 800 by 600 scene with the diver 41 pixels right of
centre: the gap shrinks from 41 to 40. -/
theorem moveViewport_strict_iff_witness :
    |(Game_Scene.sample 421).moveViewport.viewportDistance| <
      |(Game_Scene.sample 421).viewportDistance| :=
  (moveViewport_strict_iff (Game_Scene.sample 421)).2.1.mpr (by decide)

/-! ## Theorems: the diver -/

theorem truncToInt_mono_int (n : ℤ) (q : ℚ) :
    ((n : ℚ) ≤ q → n ≤ truncToInt q) ∧ (q ≤ (n : ℚ) → truncToInt q ≤ n) := by
  unfold truncToInt
  constructor
  · intro h
    split_ifs
    · exact Int.le_floor.mpr h
    · have h1 : q ≤ (⌈q⌉ : ℚ) := Int.le_ceil q
      exact_mod_cast h.trans h1
  · intro h
    split_ifs
    · have h1 : (⌊q⌋ : ℚ) ≤ q := Int.floor_le q
      exact_mod_cast h1.trans h
    · exact Int.ceil_le.mpr h

theorem truncToInt_eq_of_nonneg (q : ℚ) (n : ℤ) (h0 : 0 ≤ q) (h1 : (n : ℚ) ≤ q)
    (h2 : q < (n : ℚ) + 1) : truncToInt q = n := by
  unfold truncToInt
  rw [if_pos h0]
  exact Int.floor_eq_iff.mpr ⟨h1, h2⟩

theorem truncToInt_eq_of_neg (q : ℚ) (n : ℤ) (h0 : q < 0) (h1 : (n : ℚ) - 1 < q)
    (h2 : q ≤ (n : ℚ)) : truncToInt q = n := by
  unfold truncToInt
  rw [if_neg (not_le.mpr h0)]
  exact Int.ceil_eq_iff.mpr ⟨h1, h2⟩

theorem Diver_think_fields (d : Diver_Sprite) (state : Game_State)
    (hM : d.MOVE_RATE = fl (6 / 5)) :
    (d.think state).toRect = d.movedRect state.m_event ∧
    (d.think state).m_visible = d.m_visible ∧
    (d.think state).MOVE_RATE = d.MOVE_RATE ∧
    (d.think state).m_velocity_y =
      (if (d.movedRect state.m_event).bottom > state.m_viewport.bottom then 18
        else d.fallenY) ∧
    (d.think state).m_velocity_x =
      (if (d.movedRect state.m_event).collidesWith state.m_viewport = true then
          d.dampedX state.m_event
        else if (d.movedRect state.m_event).right ≥ state.m_viewport.right then -24
        else if (d.movedRect state.m_event).left ≤ state.m_viewport.left then 24
        else d.dampedX state.m_event) := by
  obtain ⟨h3, h18, h24, hn24, -⟩ := fl_move_rate_products
  obtain ⟨⟨⟨x, y, w, h⟩, vis⟩, M, vx, vy⟩ := d
  simp only at hM
  subst hM
  have hev : (match state.m_event with
      | some (SDL_Event.SDL_KEYDOWN SDLKey.SDLK_LEFT) =>
        Diver_Sprite.moveLeft ⟨⟨⟨x, y, w, h⟩, vis⟩, fl (6 / 5), vx, vy⟩
      | some (SDL_Event.SDL_KEYDOWN SDLKey.SDLK_RIGHT) =>
        Diver_Sprite.moveRight ⟨⟨⟨x, y, w, h⟩, vis⟩, fl (6 / 5), vx, vy⟩
      | _ => (⟨⟨⟨x, y, w, h⟩, vis⟩, fl (6 / 5), vx, vy⟩ : Diver_Sprite)) =
      ⟨⟨⟨x, y, w, h⟩, vis⟩, fl (6 / 5),
        Diver_Sprite.impelledX ⟨⟨⟨x, y, w, h⟩, vis⟩, fl (6 / 5), vx, vy⟩ state.m_event, vy⟩ := by
    rcases state.m_event with _ | ⟨_ | _ | _⟩ | _
    · simp [Diver_Sprite.impelledX, Diver_Sprite.keyImpulse]
    · simp only [Diver_Sprite.impelledX, Diver_Sprite.keyImpulse, Diver_Sprite.moveLeft, h3]
      rw [if_neg (by norm_num), sub_eq_add_neg]
    · simp only [Diver_Sprite.impelledX, Diver_Sprite.keyImpulse, Diver_Sprite.moveRight, h3]
      rw [if_neg (by norm_num)]
    · simp [Diver_Sprite.impelledX, Diver_Sprite.keyImpulse]
    · simp [Diver_Sprite.impelledX, Diver_Sprite.keyImpulse]
  unfold Diver_Sprite.think
  rw [hev]
  simp only [Diver_Sprite.moveTo, Diver_Sprite.smallBounceUp, Diver_Sprite.bounceRight,
    Diver_Sprite.bounceLeft, Diver_Sprite.movedRect, Diver_Sprite.dampedX,
    Diver_Sprite.fallenY, Rect.left, Rect.top, Rect.right, Rect.bottom, h18, h24, hn24]
  split_ifs <;> simp_all

theorem Diver_movedRect_idle (x y : ℤ) (vy : ℚ) (hx : |x| < 2 ^ 53) :
    (Diver_Sprite.sample x y 0 vy).movedRect none =
      ⟨x, truncToInt (fl ((y : ℚ) - fl (vy - fl (6 / 5)))), 40, 40⟩ := by
  simp only [Diver_Sprite.movedRect, Diver_Sprite.dampedX, Diver_Sprite.impelledX,
    Diver_Sprite.fallenY, Diver_Sprite.keyImpulse, Diver_Sprite.sample, if_true, zero_div,
    fl_zero, add_zero, fl_intCast x hx, truncToInt_intCast]

/-- C11, as stated, fails: the 40 by 40 diver with its top at 565 in the 600 high
viewport has its bottom at 605, below the viewport's bottom, when `think` is
called; with `velocityY` 18 (the frame after a small bounce) the call moves it
up to top 548, bottom 588, before the test, so no bounce happens and
`velocityY` ends at the double 16.8, which is neither 18 nor greater than
before. -/
theorem Diver_think_rising_no_bounce :
    (Diver_Sprite.sample 380 565 0 18).bottom > Game_State.sample.m_viewport.bottom ∧
    ((Diver_Sprite.sample 380 565 0 18).think Game_State.sample).toRect
      = ⟨380, 548, 40, 40⟩ ∧
    ((Diver_Sprite.sample 380 565 0 18).think Game_State.sample).m_velocity_y
      = 4728779608739021 / 281474976710656 ∧
    ((Diver_Sprite.sample 380 565 0 18).think Game_State.sample).m_velocity_y ≠
      fl ((Diver_Sprite.sample 380 565 0 18).MOVE_RATE * 15) ∧
    ((Diver_Sprite.sample 380 565 0 18).think Game_State.sample).m_velocity_y ≠ 18 ∧
    ¬ ((Diver_Sprite.sample 380 565 0 18).m_velocity_y <
      ((Diver_Sprite.sample 380 565 0 18).think Game_State.sample).m_velocity_y) := by
  have hA : fl ((18 : ℚ) - fl (6 / 5)) = 4728779608739021 / 281474976710656 := by
    rw [fl_six_fifths, fl_eq_of_near _ 4 4728779608739021 (by norm_num)
      (by norm_num [abs_of_pos]) (by norm_num [abs_of_pos]) (by rw [abs_lt]; norm_num)]
    norm_num
  have hT : fl (((565 : ℤ) : ℚ) - 4728779608739021 / 281474976710656)
      = 2411009097387213 / 4398046511104 := by
    rw [fl_eq_of_near _ 9 4822018194774426 (by norm_num)
      (by norm_num [abs_of_pos]) (by norm_num [abs_of_pos]) (by rw [abs_lt]; norm_num)]
    norm_num
  have hm : (Diver_Sprite.sample 380 565 0 18).movedRect Game_State.sample.m_event
      = ⟨380, 548, 40, 40⟩ := by
    have he : Game_State.sample.m_event = none := rfl
    rw [he, Diver_movedRect_idle 380 565 18 (by norm_num), hA, hT,
      truncToInt_eq_of_nonneg _ 548 (by norm_num) (by norm_num) (by norm_num)]
  obtain ⟨hr, -, -, hvy, -⟩ :=
    Diver_think_fields (Diver_Sprite.sample 380 565 0 18) Game_State.sample rfl
  rw [hm] at hr hvy
  have hv : ((Diver_Sprite.sample 380 565 0 18).think Game_State.sample).m_velocity_y
      = 4728779608739021 / 281474976710656 := by
    rw [hvy, if_neg (by decide)]
    exact hA
  have h18 : fl ((Diver_Sprite.sample 380 565 0 18).MOVE_RATE * 15) = 18 :=
    fl_move_rate_products.2.1
  refine ⟨by decide, hr, hv, ?_, ?_, ?_⟩
  · rw [hv, h18]
    norm_num
  · rw [hv]
    norm_num
  · rw [hv]
    show ¬ ((18 : ℚ) < 4728779608739021 / 281474976710656)
    norm_num

/-- C11, amended. With `MOVE_RATE` the double 1.2 of the constructor: when the
diver's bottom exceeds the viewport's bottom after the call, that is after the
position update the call makes, `velocityY` after `think` is the small-bounce
constant `MOVE_RATE * 15 = 18`, which is strictly greater than `velocityY`
before the call whenever that was below 18; otherwise `velocityY` is the double
difference `velocityY - MOVE_RATE`.  The bottom does exceed the viewport's
bottom after the call whenever it did before the call and `velocityY` was at
most `MOVE_RATE`, so that the diver does not move up (`top`, an `int`, is below
`2 ^ 53` in magnitude and so converts to `double` without error). -/
theorem Diver_think_small_bounce (d : Diver_Sprite) (state : Game_State)
    (hM : d.MOVE_RATE = fl (6 / 5)) :
    ((d.think state).bottom > state.m_viewport.bottom →
      (d.think state).m_velocity_y = fl (d.MOVE_RATE * 15) ∧
      (d.think state).m_velocity_y = 18 ∧
      (d.m_velocity_y < 18 → d.m_velocity_y < (d.think state).m_velocity_y)) ∧
    (¬ (d.think state).bottom > state.m_viewport.bottom →
      (d.think state).m_velocity_y = fl (d.m_velocity_y - d.MOVE_RATE)) ∧
    (d.bottom > state.m_viewport.bottom → d.m_velocity_y ≤ d.MOVE_RATE →
      |d.top| < 2 ^ 53 →
      (d.think state).bottom > state.m_viewport.bottom ∧
      (d.think state).m_velocity_y = 18 ∧
      d.m_velocity_y < (d.think state).m_velocity_y) := by
  obtain ⟨hr, -, -, hvy, -⟩ := Diver_think_fields d state hM
  have hbot : (d.think state).bottom = (d.movedRect state.m_event).bottom := by
    show (d.think state).toRect.bottom = _
    rw [hr]
  have h18 : fl (d.MOVE_RATE * 15) = 18 := by rw [hM]; exact fl_move_rate_products.2.1
  rw [hbot]
  refine ⟨?_, ?_, ?_⟩
  · intro hb
    rw [hvy, if_pos hb, h18]
    exact ⟨rfl, rfl, fun h => h⟩
  · intro hb
    rw [hvy, if_neg hb, hM]
    rfl
  · intro hb hv htop
    have hfall : d.fallenY ≤ 0 := by
      unfold Diver_Sprite.fallenY
      apply fl_nonpos
      rw [hM] at hv
      linarith
    have hmove : d.m_y ≤ truncToInt (fl ((d.m_y : ℚ) - d.fallenY)) := by
      apply (truncToInt_mono_int _ _).1
      have h1 : fl ((d.m_y : ℚ)) ≤ fl ((d.m_y : ℚ) - d.fallenY) :=
        fl_mono _ _ (by linarith)
      rwa [fl_intCast d.m_y htop] at h1
    have hb' : (d.movedRect state.m_event).bottom > state.m_viewport.bottom := by
      have : d.m_y + d.m_h > state.m_viewport.bottom := hb
      show truncToInt (fl ((d.m_y : ℚ) - d.fallenY)) + d.m_h > state.m_viewport.bottom
      omega
    have hlt : d.m_velocity_y < 18 := by
      rw [hM, fl_six_fifths] at hv
      have : (5404319552844595 / 4503599627370496 : ℚ) < 18 := by norm_num
      linarith
    rw [hvy, if_pos hb']
    exact ⟨hb', rfl, hlt⟩

/-- C11 amended, on the falling 40 by 40 diver 54 frames after a `bounceUp()` at
top 391: from top 525 with `velocityY` the double -34.79999999999998 the call
moves it to top 561, bottom 601 in the 600 high viewport, and `velocityY`
becomes 18. -/
theorem Diver_think_small_bounce_witness :
    ((Diver_Sprite.sample 380 525 0 (-1224416148691353 / 35184372088832)).think
      Game_State.sample).toRect = ⟨380, 561, 40, 40⟩ ∧
    ((Diver_Sprite.sample 380 525 0 (-1224416148691353 / 35184372088832)).think
      Game_State.sample).m_velocity_y = 18 := by
  have hA : fl ((-1224416148691353 / 35184372088832 : ℚ) - fl (6 / 5))
      = -2533274790395903 / 70368744177664 := by
    rw [fl_six_fifths, fl_eq_of_near _ 5 (-5066549580791806) (by norm_num)
      (by norm_num [abs_of_neg]) (by norm_num [abs_of_neg]) (by rw [abs_lt]; norm_num)]
    norm_num
  have hT : fl (((525 : ℤ) : ℚ) - -2533274790395903 / 70368744177664) = 561 := by
    rw [fl_eq_of_near _ 9 4934608185458688 (by norm_num)
      (by norm_num [abs_of_pos]) (by norm_num [abs_of_pos]) (by rw [abs_lt]; norm_num)]
    norm_num
  have hm : (Diver_Sprite.sample 380 525 0 (-1224416148691353 / 35184372088832)).movedRect
      Game_State.sample.m_event = ⟨380, 561, 40, 40⟩ := by
    have he : Game_State.sample.m_event = none := rfl
    rw [he, Diver_movedRect_idle 380 525 _ (by norm_num), hA, hT,
      truncToInt_eq_of_nonneg _ 561 (by norm_num) (by norm_num) (by norm_num)]
  have hr := (Diver_think_fields
    (Diver_Sprite.sample 380 525 0 (-1224416148691353 / 35184372088832))
    Game_State.sample rfl).1
  rw [hm] at hr
  have hb : ((Diver_Sprite.sample 380 525 0 (-1224416148691353 / 35184372088832)).think
      Game_State.sample).bottom > Game_State.sample.m_viewport.bottom := by
    show ((Diver_Sprite.sample 380 525 0 (-1224416148691353 / 35184372088832)).think
      Game_State.sample).toRect.bottom > Game_State.sample.m_viewport.bottom
    rw [hr]
    decide
  exact ⟨hr, ((Diver_think_small_bounce
    (Diver_Sprite.sample 380 525 0 (-1224416148691353 / 35184372088832))
    Game_State.sample rfl).1 hb).2.1⟩

/-! ## Theorems: sprites and rectangles -/

/-- C14. `Sprite(width, height)` fails an assertion exactly when `width <= 0` or
`height <= 0`, and otherwise builds the visible sprite with rectangle
`(0, 0, width, height)`; the constructors of clouds, coins and divers fail in
exactly the same cases. -/
theorem Sprite_create_iff (w h : ℤ) :
    (Sprite.create w h = none ↔ w ≤ 0 ∨ h ≤ 0) ∧
    (0 < w → 0 < h →
      Sprite.create w h = some { m_x := 0, m_y := 0, m_w := w, m_h := h, m_visible := true }) ∧
    (Cloud_Sprite.create w h = none ↔ w ≤ 0 ∨ h ≤ 0) ∧
    (0 < w → 0 < h → ∃ c, Cloud_Sprite.create w h = some c ∧
      c.toRect = ⟨0, 0, w, h⟩ ∧ c.m_visible = true) ∧
    (Coin_Sprite.create w = none ↔ w ≤ 0) ∧
    (0 < w → ∃ c, Coin_Sprite.create w = some c ∧
      c.toRect = ⟨0, 0, w, w⟩ ∧ c.m_visible = true) ∧
    (Diver_Sprite.create w = none ↔ w ≤ 0) ∧
    (0 < w → ∃ d, Diver_Sprite.create w = some d ∧
      d.toRect = ⟨0, 0, w, w⟩ ∧ d.m_visible = true) := by
  have hnone : ∀ a b : ℤ, Sprite.create a b = none ↔ a ≤ 0 ∨ b ≤ 0 := by
    intro a b
    unfold Sprite.create
    split_ifs with h1 h2
    · simp; omega
    · simp; omega
    · simp; omega
  have hsome : ∀ a b : ℤ, 0 < a → 0 < b →
      Sprite.create a b = some { m_x := 0, m_y := 0, m_w := a, m_h := b, m_visible := true } := by
    intro a b ha hb
    unfold Sprite.create
    rw [if_pos ha, if_pos hb]
  refine ⟨hnone w h, hsome w h, ?_, ?_, ?_, ?_, ?_, ?_⟩
  · unfold Cloud_Sprite.create
    rw [Option.map_eq_none', hnone]
  · intro hw hh
    unfold Cloud_Sprite.create
    rw [hsome w h hw hh]
    exact ⟨_, rfl, rfl, rfl⟩
  · unfold Coin_Sprite.create
    rw [Option.map_eq_none', hnone]
    omega
  · intro hw
    unfold Coin_Sprite.create
    rw [hsome w w hw hw]
    exact ⟨_, rfl, rfl, rfl⟩
  · unfold Diver_Sprite.create
    rw [Option.map_eq_none', hnone]
    omega
  · intro hw
    unfold Diver_Sprite.create
    rw [hsome w w hw hw]
    exact ⟨_, rfl, rfl, rfl⟩

/-- C14, for the 40 by 40 diver of the 800 by 600 game. -/
theorem Sprite_create_iff_witness :
    Sprite.create 40 40 = some { m_x := 0, m_y := 0, m_w := 40, m_h := 40, m_visible := true } :=
  (Sprite_create_iff 40 40).2.1 (by decide) (by decide)

/-- C15, as stated, fails: the setter `width(w)` stores a negative `w`, and the
constructor `Rect(x, y, w, h)` stores negative sizes. -/
theorem Rect_negative_size :
    (Rect.default.applyAll [Rect.Op.width (-1)]).width < 0 ∧
    (Rect.default.applyAll [Rect.Op.height (-1)]).height < 0 ∧
    (Rect.mk 0 0 (-1) (-1)).width < 0 ∧ (Rect.mk 0 0 (-1) (-1)).height < 0 := by
  decide

/-- C15, amended. `Rect` stores the sizes it is given: a rectangle with
non-negative width and height (such as `Rect()`, or `Rect(x, y, w, h)` with
`w, h >= 0`) keeps them non-negative under every sequence of mutators in which
no `width(w)` or `height(h)` call passes a negative size; `left(x)`, `top(y)`
and `moveTo(x, y)` never change width or height. -/
theorem Rect_size_invariant (r : Rect) (ops : List Rect.Op)
    (hw : 0 ≤ r.width) (hh : 0 ≤ r.height)
    (hops : ∀ op ∈ ops, op.negativeSize = false) :
    0 ≤ (r.applyAll ops).width ∧ 0 ≤ (r.applyAll ops).height ∧
    Rect.default.width = 0 ∧ Rect.default.height = 0 ∧
    (∀ x : ℤ, (r.setLeft x).width = r.width ∧ (r.setLeft x).height = r.height) ∧
    (∀ y : ℤ, (r.setTop y).width = r.width ∧ (r.setTop y).height = r.height) ∧
    (∀ x y : ℤ, (r.moveTo x y).width = r.width ∧ (r.moveTo x y).height = r.height) := by
  have gen : ∀ (l : List Rect.Op) (q : Rect), 0 ≤ q.width → 0 ≤ q.height →
      (∀ op ∈ l, op.negativeSize = false) →
      0 ≤ (q.applyAll l).width ∧ 0 ≤ (q.applyAll l).height := by
    intro l
    induction l with
    | nil => intro q h1 h2 _; exact ⟨h1, h2⟩
    | cons op l ih =>
      intro q h1 h2 hl
      have hop : op.negativeSize = false := hl op (List.mem_cons_self _ _)
      apply ih (q.apply op)
      · cases op <;>
          simp_all [Rect.apply, Rect.setWidth, Rect.setHeight, Rect.setLeft, Rect.setTop,
            Rect.moveTo, Rect.width, Rect.height, Rect.Op.negativeSize]
      · cases op <;>
          simp_all [Rect.apply, Rect.setWidth, Rect.setHeight, Rect.setLeft, Rect.setTop,
            Rect.moveTo, Rect.width, Rect.height, Rect.Op.negativeSize]
      · intro op' hop'
        exact hl op' (List.mem_cons_of_mem _ hop')
  obtain ⟨g1, g2⟩ := gen ops r hw hh hops
  exact ⟨g1, g2, rfl, rfl, fun _ => ⟨rfl, rfl⟩, fun _ => ⟨rfl, rfl⟩, fun _ _ => ⟨rfl, rfl⟩⟩

/-- C15 amended, on the calls `Game_Scene(800, 600)` makes on its viewport. -/
theorem Rect_size_invariant_witness :
    0 ≤ (Rect.default.applyAll
      [Rect.Op.left 0, Rect.Op.top 0, Rect.Op.width 800, Rect.Op.height 600]).width :=
  (Rect_size_invariant Rect.default
    [Rect.Op.left 0, Rect.Op.top 0, Rect.Op.width 800, Rect.Op.height 600]
    (by decide) (by decide) (by decide)).1

/-! ## Theorems: clouds -/

theorem Cloud_reset_fields (c : Cloud_Sprite) (state : Game_State) (rs : RandomStream) :
    (c.reset state rs).1.m_visible = false ∧
    (c.reset state rs).1.m_sleep = Int.tmod (rs 0) 60 ∧
    (c.reset state rs).1.m_velocity =
      (if Int.tmod (rs 2) 2 ≠ 0 then 0 - (1 + Int.tmod (rs 1) 6) else 1 + Int.tmod (rs 1) 6) ∧
    (c.reset state rs).1.m_x =
      (if (c.reset state rs).1.m_velocity > 0 then
        state.m_viewport.left - (Int.tdiv state.m_viewport.width 5 - 2)
      else state.m_viewport.left + (state.m_viewport.width - 2)) ∧
    (c.reset state rs).1.m_y =
      Int.tdiv state.m_viewport.height 2 +
        Int.tmod (rs 3)
          (Int.tdiv state.m_viewport.height 2 - Int.tdiv state.m_viewport.height 8) ∧
    (c.reset state rs).1.m_w = c.m_w ∧ (c.reset state rs).1.m_h = c.m_h ∧
    (c.reset state rs).2 = fun i => rs (i + 4) := by
  unfold Cloud_Sprite.reset random
  simp only [Cloud_Sprite.setVisible, Cloud_Sprite.moveTo]
  split_ifs <;> simp_all

theorem Cloud_reset_velocity (c : Cloud_Sprite) (state : Game_State) (rs : RandomStream) :
    (Int.tmod (rs 2) 2 = 0 →
      1 ≤ (c.reset state rs).1.m_velocity ∧ (c.reset state rs).1.m_velocity ≤ 6) ∧
    (Int.tmod (rs 2) 2 ≠ 0 →
      -6 ≤ (c.reset state rs).1.m_velocity ∧ (c.reset state rs).1.m_velocity ≤ -1) := by
  have hv := (Cloud_reset_fields c state rs).2.2.1
  have h0 : 0 ≤ Int.tmod (rs 1) 6 := Int.tmod_nonneg _ (Int.natCast_nonneg _)
  have h6 : Int.tmod (rs 1) 6 < 6 := Int.tmod_lt_of_pos _ (by norm_num)
  constructor
  · intro h
    rw [hv, if_neg (not_not.mpr h)]
    omega
  · intro h
    rw [hv, if_pos h]
    omega

/-- C12, as stated, fails: in the 800 by 600 game a 160 by 75 cloud reset with the
draws 30, 2, 0, 10 gets velocity 3 and left edge -158, so its right edge is at
2, inside the viewport, and its rectangle overlaps the viewport. -/
theorem Cloud_reset_overlaps_viewport :
    ((Cloud_Sprite.sample 0 0 0 0 true).reset Game_State.sample
      (RandomStream.ofList [30, 2, 0, 10])).1.m_velocity = 3 ∧
    ((Cloud_Sprite.sample 0 0 0 0 true).reset Game_State.sample
      (RandomStream.ofList [30, 2, 0, 10])).1.right = 2 ∧
    ¬ (((Cloud_Sprite.sample 0 0 0 0 true).reset Game_State.sample
      (RandomStream.ofList [30, 2, 0, 10])).1.right ≤ Game_State.sample.m_viewport.left) ∧
    ((Cloud_Sprite.sample 0 0 0 0 true).reset Game_State.sample
      (RandomStream.ofList [30, 2, 0, 10])).1.collidesWith Game_State.sample.m_viewport
        = true := by
  decide

/-- C12, amended. For every viewport and every outcome of the draws, `reset`
leaves the cloud invisible with a velocity of magnitude 1 to 6, at the side it
will enter from and reaching two pixel columns into the viewport's span: with a
positive new velocity its left edge is `viewport.left - (viewport.width/5 - 2)`,
so that a cloud of width `viewport.width/5` has its right edge at
`viewport.left + 2`; with a negative new velocity its left edge is
`viewport.right - 2`. -/
theorem Cloud_reset_entry_side (c : Cloud_Sprite) (state : Game_State) (rs : RandomStream) :
    (c.reset state rs).1.m_visible = false ∧
    ((1 ≤ (c.reset state rs).1.m_velocity ∧ (c.reset state rs).1.m_velocity ≤ 6) ∨
      (-6 ≤ (c.reset state rs).1.m_velocity ∧ (c.reset state rs).1.m_velocity ≤ -1)) ∧
    ((c.reset state rs).1.m_velocity > 0 →
      (c.reset state rs).1.left =
        state.m_viewport.left - (Int.tdiv state.m_viewport.width 5 - 2) ∧
      (c.width = Int.tdiv state.m_viewport.width 5 →
        (c.reset state rs).1.right = state.m_viewport.left + 2)) ∧
    ((c.reset state rs).1.m_velocity < 0 →
      (c.reset state rs).1.left = state.m_viewport.right - 2) := by
  obtain ⟨hvis, -, -, hx, -, hw, -, -⟩ := Cloud_reset_fields c state rs
  obtain ⟨hev, hodd⟩ := Cloud_reset_velocity c state rs
  refine ⟨hvis, ?_, ?_, ?_⟩
  · by_cases h : Int.tmod (rs 2) 2 = 0
    · exact Or.inl (hev h)
    · exact Or.inr (hodd h)
  · intro hpos
    have hl : (c.reset state rs).1.m_x =
        state.m_viewport.left - (Int.tdiv state.m_viewport.width 5 - 2) := by
      rw [hx, if_pos hpos]
    refine ⟨hl, ?_⟩
    intro hcw
    have hcw' : c.m_w = Int.tdiv state.m_viewport.width 5 := hcw
    show (c.reset state rs).1.m_x + (c.reset state rs).1.m_w = _
    rw [hl, hw, hcw']
    ring
  · intro hneg
    show (c.reset state rs).1.m_x = state.m_viewport.m_x + state.m_viewport.m_w - 2
    rw [hx, if_neg (by omega)]
    show state.m_viewport.m_x + (state.m_viewport.m_w - 2) = _
    ring

theorem Cloud_think_cases (c : Cloud_Sprite) (state : Game_State) (rs : RandomStream) :
    (1 < c.m_sleep → c.think state rs = ({ c with m_sleep := c.m_sleep - 1 }, rs)) ∧
    (c.m_sleep ≤ 1 → c.advanced.collidesWith state.m_viewport = true →
      c.think state rs = (c.advanced, rs)) ∧
    (c.m_sleep ≤ 1 → c.advanced.collidesWith state.m_viewport = false →
      c.think state rs = c.advanced.reset state rs) := by
  have hadv : c.m_sleep ≤ 1 →
      (let c1 : Cloud_Sprite := { c with m_sleep := c.m_sleep - 1 }
       let c2 := if c1.m_sleep = 0 then c1.setVisible true else c1
       c2.moveTo (c2.left + c2.m_velocity) c2.top) = c.advanced := by
    intro _
    simp only [Cloud_Sprite.advanced, Cloud_Sprite.setVisible, Cloud_Sprite.moveTo, Rect.left,
      Rect.top]
    by_cases h1 : c.m_sleep = 1
    · have h0 : c.m_sleep - 1 = 0 := by omega
      simp [h1]
    · have h0 : ¬ (c.m_sleep - 1 = 0) := by omega
      simp [h1, h0]
  refine ⟨?_, ?_, ?_⟩
  · intro h
    unfold Cloud_Sprite.think
    simp only
    rw [if_pos (by omega)]
  · intro h hc
    unfold Cloud_Sprite.think
    simp only
    rw [if_neg (by omega)]
    simp only at hadv
    rw [hadv h, if_neg (not_not.mpr hc)]
  · intro h hc
    unfold Cloud_Sprite.think
    simp only
    rw [if_neg (by omega)]
    simp only at hadv
    rw [hadv h, if_pos (by rw [hc]; decide)]

/-- C13, as stated, fails: in the 800 by 600 game a visible 160 by 75 cloud moving
rightward with velocity 3 from left edge 798 leaves the viewport past its right
edge (left edge 801) and is reset; with the draws 30, 2, 1, 10 the new velocity
is -3 and the cloud is put back at the right edge, left edge 798, not at the
left edge -158. -/
theorem Cloud_think_recycles_to_right :
    (Cloud_Sprite.sample 798 300 0 3 true).m_velocity > 0 ∧
    (Cloud_Sprite.sample 798 300 0 3 true).advanced.left ≥
      Game_State.sample.m_viewport.right ∧
    ((Cloud_Sprite.sample 798 300 0 3 true).think Game_State.sample
      (RandomStream.ofList [30, 2, 1, 10])).1.m_velocity = -3 ∧
    ((Cloud_Sprite.sample 798 300 0 3 true).think Game_State.sample
      (RandomStream.ofList [30, 2, 1, 10])).1.left = 798 ∧
    ((Cloud_Sprite.sample 798 300 0 3 true).think Game_State.sample
      (RandomStream.ofList [30, 2, 1, 10])).1.left ≠
        Game_State.sample.m_viewport.left -
          (Int.tdiv Game_State.sample.m_viewport.width 5 - 2) := by
  decide

/-- C13, amended. When `think` gets past the sleep check and finds the moved
cloud no longer overlapping the viewport, it resets the cloud, and the side the
cloud is put at follows the direction newly drawn in that reset, not the
direction it was moving in: at the viewport's left edge when the third draw is
even (new velocity positive), at the right edge when it is odd (new velocity
negative), whichever edge the cloud left by. -/
theorem Cloud_think_recycle (c : Cloud_Sprite) (state : Game_State) (rs : RandomStream)
    (hs : c.m_sleep ≤ 1) (hout : c.advanced.collidesWith state.m_viewport = false) :
    c.think state rs = c.advanced.reset state rs ∧
    (c.think state rs).1.m_visible = false ∧
    (Int.tmod (rs 2) 2 = 0 →
      (c.think state rs).1.m_velocity > 0 ∧
      (c.think state rs).1.left =
        state.m_viewport.left - (Int.tdiv state.m_viewport.width 5 - 2)) ∧
    (Int.tmod (rs 2) 2 ≠ 0 →
      (c.think state rs).1.m_velocity < 0 ∧
      (c.think state rs).1.left = state.m_viewport.left + (state.m_viewport.width - 2)) := by
  have ht := (Cloud_think_cases c state rs).2.2 hs hout
  obtain ⟨hvis, -, -, hx, -, -, -, -⟩ := Cloud_reset_fields c.advanced state rs
  obtain ⟨hev, hodd⟩ := Cloud_reset_velocity c.advanced state rs
  rw [ht]
  refine ⟨rfl, hvis, ?_, ?_⟩
  · intro h
    have hv := hev h
    refine ⟨by omega, ?_⟩
    show (c.advanced.reset state rs).1.m_x = _
    rw [hx, if_pos (by omega)]
  · intro h
    have hv := hodd h
    refine ⟨by omega, ?_⟩
    show (c.advanced.reset state rs).1.m_x = _
    rw [hx, if_neg (by omega)]

/-- C13 amended, on a rightward cloud leaving the 800 wide viewport by its right
edge and drawing a rightward direction again. -/
theorem Cloud_think_recycle_witness :
    ((Cloud_Sprite.sample 798 300 0 3 true).think Game_State.sample
      (RandomStream.ofList [30, 2, 0, 10])).1.left =
        Game_State.sample.m_viewport.left -
          (Int.tdiv Game_State.sample.m_viewport.width 5 - 2) :=
  ((Cloud_think_recycle (Cloud_Sprite.sample 798 300 0 3 true) Game_State.sample
    (RandomStream.ofList [30, 2, 0, 10]) (by decide) (by decide)).2.2.1 (by decide)).2

theorem Cloud_thinkTimes_asleep (c : Cloud_Sprite) (state : Game_State) (rs : RandomStream)
    (n : ℕ) (h : (n : ℤ) < c.m_sleep) :
    c.thinkTimes state rs n = ({ c with m_sleep := c.m_sleep - n }, rs) := by
  induction n with
  | zero => simp [Cloud_Sprite.thinkTimes]
  | succ n ih =>
    have hn : (n : ℤ) < c.m_sleep := by push_cast at h; omega
    show (c.thinkTimes state rs n).1.think state (c.thinkTimes state rs n).2 = _
    rw [ih hn]
    have h1 : 1 < ({ c with m_sleep := c.m_sleep - n } : Cloud_Sprite).m_sleep := by
      show 1 < c.m_sleep - n
      push_cast at h
      omega
    rw [(Cloud_think_cases _ state rs).1 h1]
    simp only [Prod.mk.injEq, and_true]
    congr 1
    push_cast
    ring

theorem Cloud_think_awake (c : Cloud_Sprite) (state : Game_State) (rs : RandomStream)
    (h : c.awake) : (c.think state rs).1.awake := by
  obtain ⟨h1, h2, h3⟩ := Cloud_think_cases c state rs
  rcases lt_or_le 1 c.m_sleep with hs | hs
  · rw [h1 hs]
    intro hv
    have := h hv
    omega
  · cases hc : c.advanced.collidesWith state.m_viewport
    · rw [h3 hs hc]
      intro hv
      rw [(Cloud_reset_fields c.advanced state rs).1] at hv
      exact absurd hv (by decide)
    · rw [h2 hs hc]
      intro hv
      show c.m_sleep - 1 ≤ 0
      by_cases h1' : c.m_sleep = 1
      · omega
      · have hv' : c.m_visible = true := by
          have : (if c.m_sleep = 1 then true else c.m_visible) = true := hv
          rwa [if_neg h1'] at this
        have := h hv'
        omega

/-- C17. A cloud is invisible right after `reset`.  A `think` call whose
decremented counter is still positive changes nothing but the counter; a call
that gets past the sleep check makes the cloud visible exactly when the
decremented counter is zero and translates its left edge by the velocity, top
unchanged, after which the cloud is recycled by `reset` if it no longer overlaps
the viewport.  A visible cloud has always used up its counter, so every call on
a visible cloud moves it.  From a counter of `k + 1`, `k` calls leave position
and visibility as they are and the next call makes the cloud visible, moved by
its velocity. -/
theorem Cloud_think_wake (c : Cloud_Sprite) (state : Game_State) (rs : RandomStream) :
    (c.reset state rs).1.m_visible = false ∧
    (1 < c.m_sleep → c.think state rs = ({ c with m_sleep := c.m_sleep - 1 }, rs)) ∧
    (c.m_sleep ≤ 1 →
      c.think state rs =
        if c.advanced.collidesWith state.m_viewport = true then (c.advanced, rs)
        else c.advanced.reset state rs) ∧
    (c.advanced.left = c.left + c.m_velocity ∧ c.advanced.top = c.top ∧
      c.advanced.width = c.width ∧ c.advanced.height = c.height ∧
      c.advanced.m_velocity = c.m_velocity) ∧
    (c.advanced.m_visible = true ↔ c.m_sleep - 1 = 0 ∨ c.m_visible = true) ∧
    (c.m_visible = false →
      ((c.think state rs).1.m_visible = true ↔
        c.m_sleep - 1 = 0 ∧ c.advanced.collidesWith state.m_viewport = true)) ∧
    (∀ (w h : ℤ) (c0 : Cloud_Sprite), Cloud_Sprite.create w h = some c0 → c0.awake) ∧
    (c.reset state rs).1.awake ∧
    (c.awake → (c.think state rs).1.awake) ∧
    (c.awake → c.m_visible = true →
      c.think state rs =
        if c.advanced.collidesWith state.m_viewport = true then (c.advanced, rs)
        else c.advanced.reset state rs) ∧
    (∀ n : ℕ, (n : ℤ) < c.m_sleep →
      c.thinkTimes state rs n = ({ c with m_sleep := c.m_sleep - n }, rs)) ∧
    (∀ k : ℕ, c.m_sleep = (k : ℤ) + 1 →
      c.thinkTimes state rs k = ({ c with m_sleep := 1 }, rs) ∧
      c.thinkTimes state rs (k + 1) =
        if ({ c with m_sleep := 0, m_visible := true, m_x := c.m_x + c.m_velocity } :
            Cloud_Sprite).collidesWith state.m_viewport = true then
          (({ c with m_sleep := 0, m_visible := true, m_x := c.m_x + c.m_velocity } :
            Cloud_Sprite), rs)
        else
          ({ c with m_sleep := 0, m_visible := true, m_x := c.m_x + c.m_velocity } :
            Cloud_Sprite).reset state rs) := by
  obtain ⟨h1, h2, h3⟩ := Cloud_think_cases c state rs
  have hpast : c.m_sleep ≤ 1 →
      c.think state rs =
        if c.advanced.collidesWith state.m_viewport = true then (c.advanced, rs)
        else c.advanced.reset state rs := by
    intro hs
    cases hc : c.advanced.collidesWith state.m_viewport
    · rw [h3 hs hc]; rfl
    · rw [h2 hs hc]; rfl
  have hresetvis := (Cloud_reset_fields c state rs).1
  refine ⟨hresetvis, h1, hpast, ⟨rfl, rfl, rfl, rfl, rfl⟩, ?_, ?_, ?_, ?_,
    Cloud_think_awake c state rs, ?_, Cloud_thinkTimes_asleep c state rs, ?_⟩
  · show (if c.m_sleep = 1 then true else c.m_visible) = true ↔ _
    by_cases hs : c.m_sleep = 1
    · simp [hs]
    · have : ¬ (c.m_sleep - 1 = 0) := by omega
      simp [hs, this]
  · intro hinv
    rcases lt_or_le 1 c.m_sleep with hs | hs
    · rw [h1 hs]
      constructor
      · intro hv
        exact absurd (hinv ▸ hv : false = true) (by decide)
      · rintro ⟨h0, -⟩
        omega
    · cases hc : c.advanced.collidesWith state.m_viewport
      · rw [h3 hs hc, (Cloud_reset_fields c.advanced state rs).1]
        simp
      · rw [h2 hs hc]
        show (if c.m_sleep = 1 then true else c.m_visible) = true ↔ _
        by_cases hs1 : c.m_sleep = 1
        · simp [hs1]
        · have : ¬ (c.m_sleep - 1 = 0) := by omega
          simp [hs1, this, hinv]
  · intro w h c0 hc0
    unfold Cloud_Sprite.create at hc0
    rw [Option.map_eq_some'] at hc0
    obtain ⟨sp, -, rfl⟩ := hc0
    intro _
    exact le_refl 0
  · intro hv
    rw [hresetvis] at hv
    exact absurd hv (by decide)
  · intro ha hv
    exact hpast (by have := ha hv; omega)
  · intro k hk
    have hlt : (k : ℤ) < c.m_sleep := by omega
    have hk1 : c.thinkTimes state rs k = ({ c with m_sleep := 1 }, rs) := by
      rw [Cloud_thinkTimes_asleep c state rs k hlt]
      simp only [Prod.mk.injEq, and_true]
      congr 1
      omega
    refine ⟨hk1, ?_⟩
    show (c.thinkTimes state rs k).1.think state (c.thinkTimes state rs k).2 = _
    rw [hk1]
    have hle : ({ c with m_sleep := 1 } : Cloud_Sprite).m_sleep ≤ 1 := le_refl 1
    cases hc : ({ c with m_sleep := 0, m_visible := true, m_x := c.m_x + c.m_velocity } :
            Cloud_Sprite).collidesWith state.m_viewport
    · rw [(Cloud_think_cases _ state rs).2.2 hle hc]
      rfl
    · rw [(Cloud_think_cases _ state rs).2.1 hle hc]
      rfl

/-- C17, on a 160 by 75 cloud asleep for three calls in the 800 by 600 game: two
calls leave it where it is, invisible; the third makes it visible, moved by its
velocity 3. -/
theorem Cloud_think_wake_witness :
    (Cloud_Sprite.sample 0 300 3 3 false).thinkTimes Game_State.sample
        (RandomStream.ofList []) 2 =
      (Cloud_Sprite.sample 0 300 1 3 false, RandomStream.ofList []) ∧
    (Cloud_Sprite.sample 0 300 3 3 false).thinkTimes Game_State.sample
        (RandomStream.ofList []) 3 =
      (Cloud_Sprite.sample 3 300 0 3 true, RandomStream.ofList []) :=
  (Cloud_think_wake (Cloud_Sprite.sample 0 300 3 3 false) Game_State.sample
    (RandomStream.ofList [])).2.2.2.2.2.2.2.2.2.2.2 2 (by decide)

/-! ## Theorems: the pass over the clouds -/

theorem cloudLoop_consumed (state : Game_State) (cs : List Cloud_Sprite) :
    ∀ (diver : Diver_Sprite) (rs : RandomStream),
      (Game_Scene.cloudLoop state cs diver true rs).bounced = cs.map (fun _ => false) ∧
      (Game_Scene.cloudLoop state cs diver true rs).diver = diver ∧
      (Game_Scene.cloudLoop state cs diver true rs).clouds =
        Game_Scene.advanceClouds state cs rs := by
  induction cs with
  | nil => intro diver rs; exact ⟨rfl, rfl, rfl⟩
  | cons c cs ih =>
    intro diver rs
    obtain ⟨h1, h2, h3⟩ := ih diver (c.think state rs).2
    simp only [Game_Scene.cloudLoop, Bool.not_true, Bool.false_and, Bool.false_eq_true,
      if_false, List.map_cons, Game_Scene.advanceClouds]
    exact ⟨by rw [h1], h2, by rw [h3]⟩

theorem cloudLoop_fresh (state : Game_State) (cs : List Cloud_Sprite) :
    ∀ (diver : Diver_Sprite) (rs : RandomStream),
      (Game_Scene.cloudLoop state cs diver false rs).bounced =
        Game_Scene.firstWins diver cs ∧
      (Game_Scene.cloudLoop state cs diver false rs).diver =
        (if cs.any (Game_Scene.qualifies diver) then diver.bounceUp else diver) ∧
      (Game_Scene.cloudLoop state cs diver false rs).clouds =
        Game_Scene.advanceClouds state cs rs := by
  induction cs with
  | nil => intro diver rs; exact ⟨rfl, rfl, rfl⟩
  | cons c cs ih =>
    intro diver rs
    have hhit : (!false && diver.isFalling && c.isVisible && c.collidesWith diver.toRect)
        = Game_Scene.qualifies diver c := by
      simp [Game_Scene.qualifies]
    cases hq : Game_Scene.qualifies diver c
    · obtain ⟨h1, h2, h3⟩ := ih diver (c.think state rs).2
      simp only [Game_Scene.cloudLoop, hhit, hq, Bool.false_eq_true, if_false,
        Game_Scene.firstWins, List.any_cons, Bool.false_or, Game_Scene.advanceClouds]
      exact ⟨by rw [h1], h2, by rw [h3]⟩
    · obtain ⟨h1, h2, h3⟩ := cloudLoop_consumed state cs diver.bounceUp (c.think state rs).2
      simp only [Game_Scene.cloudLoop, hhit, hq, if_true, Game_Scene.firstWins,
        List.any_cons, Bool.true_or, Game_Scene.advanceClouds]
      exact ⟨by rw [h1], h2, by rw [h3]⟩

theorem firstWins_count (diver : Diver_Sprite) (cs : List Cloud_Sprite) :
    (Game_Scene.firstWins diver cs).count true ≤ 1 := by
  induction cs with
  | nil => simp [Game_Scene.firstWins]
  | cons c cs ih =>
    unfold Game_Scene.firstWins
    split_ifs
    · have : (cs.map (fun _ => false)).count true = 0 := by
        rw [List.count_eq_zero]
        simp
      rw [List.count_cons_self, this]
    · simpa using ih

theorem firstWins_index (diver : Diver_Sprite) (cs : List Cloud_Sprite) :
    ∀ (i : ℕ) (c : Cloud_Sprite), cs[i]? = some c →
      ((Game_Scene.firstWins diver cs)[i]? = some true ↔
        (∀ j < i, (Game_Scene.firstWins diver cs)[j]? = some false) ∧
          Game_Scene.qualifies diver c = true) := by
  induction cs with
  | nil => intro i c h; simp at h
  | cons c0 cs ih =>
    intro i c h
    unfold Game_Scene.firstWins
    by_cases hq : Game_Scene.qualifies diver c0 = true
    · rw [if_pos hq]
      cases i with
      | zero =>
        simp only [List.getElem?_cons_zero, Option.some.injEq] at h
        subst h
        simp [hq]
      | succ i =>
        constructor
        · intro hb
          simp only [List.getElem?_cons_succ, List.getElem?_map] at hb
          cases hcs : cs[i]? <;> simp [hcs] at hb
        · rintro ⟨hall, -⟩
          have := hall 0 (Nat.succ_pos i)
          simp at this
    · rw [if_neg hq]
      cases i with
      | zero =>
        simp only [List.getElem?_cons_zero, Option.some.injEq] at h
        subst h
        simp [hq]
      | succ i =>
        simp only [List.getElem?_cons_succ] at h ⊢
        rw [ih i c h]
        constructor
        · rintro ⟨hall, hc⟩
          refine ⟨?_, hc⟩
          intro j hj
          cases j with
          | zero => simp
          | succ j => simpa using hall j (by omega)
        · rintro ⟨hall, hc⟩
          refine ⟨?_, hc⟩
          intro j hj
          simpa using hall (j + 1) (by omega)

/-- C16. In the pass over the clouds `bounceUp()` is called at most once: it is
called for a cloud exactly when no earlier cloud in pool order was bounced on,
the diver is falling, the cloud is visible and its rectangle, as it is before
the cloud's own `think`, collides with the diver's; the first qualifying cloud
wins.  Every cloud is advanced by `think` once, bounce or not, and when no cloud
qualifies the diver is left as it was. -/
theorem thinkClouds_first_wins (g : Game_Scene) (rs : RandomStream) :
    (g.thinkClouds rs).bounced.count true ≤ 1 ∧
    (g.thinkClouds rs).bounced.length = g.m_clouds.length ∧
    (∀ (i : ℕ) (c : Cloud_Sprite), g.m_clouds[i]? = some c →
      ((g.thinkClouds rs).bounced[i]? = some true ↔
        (∀ j < i, (g.thinkClouds rs).bounced[j]? = some false) ∧
          g.m_diver.isFalling = true ∧ c.isVisible = true ∧
          c.collidesWith g.m_diver.toRect = true)) ∧
    (g.thinkClouds rs).bounced = Game_Scene.firstWins g.m_diver g.m_clouds ∧
    (g.thinkClouds rs).clouds = Game_Scene.advanceClouds g.m_state g.m_clouds rs ∧
    (g.thinkClouds rs).clouds.length = g.m_clouds.length ∧
    ((∀ c ∈ g.m_clouds, Game_Scene.qualifies g.m_diver c = false) →
      (g.thinkClouds rs).diver = g.m_diver) ∧
    ((∃ c ∈ g.m_clouds, Game_Scene.qualifies g.m_diver c = true) →
      (g.thinkClouds rs).diver = g.m_diver.bounceUp) ∧
    (g.m_diver.isFalling = false → (g.thinkClouds rs).diver = g.m_diver) := by
  obtain ⟨hb, hd, hc⟩ := cloudLoop_fresh g.m_state g.m_clouds g.m_diver rs
  have hlenB : ∀ cs : List Cloud_Sprite,
      (Game_Scene.firstWins g.m_diver cs).length = cs.length := by
    intro cs
    induction cs with
    | nil => rfl
    | cons c cs ih =>
      unfold Game_Scene.firstWins
      split_ifs <;> simp [ih]
  have hlenC : ∀ (cs : List Cloud_Sprite) (r : RandomStream),
      (Game_Scene.advanceClouds g.m_state cs r).length = cs.length := by
    intro cs
    induction cs with
    | nil => intro r; rfl
    | cons c cs ih => intro r; simp [Game_Scene.advanceClouds, ih]
  have hnone : (∀ c ∈ g.m_clouds, Game_Scene.qualifies g.m_diver c = false) →
      (g.thinkClouds rs).diver = g.m_diver := by
    intro hall
    have : g.m_clouds.any (Game_Scene.qualifies g.m_diver) = false := by
      rw [List.any_eq_false]
      intro c hc'
      rw [hall c hc']
      decide
    show (Game_Scene.cloudLoop g.m_state g.m_clouds g.m_diver false rs).diver = _
    rw [hd, this]
    rfl
  refine ⟨?_, ?_, ?_, hb, hc, ?_, hnone, ?_, ?_⟩
  · show (Game_Scene.cloudLoop g.m_state g.m_clouds g.m_diver false rs).bounced.count true ≤ 1
    rw [hb]
    exact firstWins_count _ _
  · show (Game_Scene.cloudLoop g.m_state g.m_clouds g.m_diver false rs).bounced.length = _
    rw [hb, hlenB]
  · intro i c hi
    show (Game_Scene.cloudLoop g.m_state g.m_clouds g.m_diver false rs).bounced[i]? = some true ↔
      (∀ j < i, (Game_Scene.cloudLoop g.m_state g.m_clouds g.m_diver false rs).bounced[j]?
        = some false) ∧ _
    rw [hb, firstWins_index g.m_diver g.m_clouds i c hi]
    simp [Game_Scene.qualifies, and_assoc]
  · show (Game_Scene.cloudLoop g.m_state g.m_clouds g.m_diver false rs).clouds.length = _
    rw [hc, hlenC]
  · rintro ⟨c, hmem, hq⟩
    have : g.m_clouds.any (Game_Scene.qualifies g.m_diver) = true := by
      rw [List.any_eq_true]
      exact ⟨c, hmem, hq⟩
    show (Game_Scene.cloudLoop g.m_state g.m_clouds g.m_diver false rs).diver = _
    rw [hd, this]
    rfl
  · intro hf
    apply hnone
    intro c _
    simp [Game_Scene.qualifies, hf]

/-! ## Theorems: diver physics and coins -/

theorem move_rate_bounds :
    (1 : ℚ) < fl (6 / 5) ∧ fl (6 / 5) < 18 ∧ |fl (6 / 5) - 6 / 5| ≤ 1 / 2 ^ 54 := by
  rw [fl_six_fifths]
  refine ⟨by norm_num, by norm_num, ?_⟩
  rw [abs_le]
  constructor <;> norm_num

theorem fl_div_move_rate (v : ℚ) (hv : fl v = v) : |fl (v / fl (6 / 5))| ≤ |v| := by
  have hM : (1 : ℚ) < fl (6 / 5) := move_rate_bounds.1
  have hpos : (0 : ℚ) < fl (6 / 5) := by linarith
  rcases le_or_lt 0 v with h | h
  · have h1 : 0 ≤ v / fl (6 / 5) := div_nonneg h hpos.le
    have h2 : v / fl (6 / 5) ≤ v := div_le_self h hM.le
    have h3 := fl_mono _ _ h2
    rw [hv] at h3
    rw [abs_of_nonneg (fl_nonneg _ h1), abs_of_nonneg h]
    exact h3
  · have h1 : v / fl (6 / 5) ≤ 0 := div_nonpos_of_nonpos_of_nonneg h.le hpos.le
    have h2 : v ≤ v / fl (6 / 5) := by
      rw [le_div_iff₀ hpos]
      nlinarith
    have h3 := fl_mono _ _ h2
    rw [hv] at h3
    rw [abs_of_nonpos (fl_nonpos _ h1), abs_of_neg h]
    linarith

theorem fl_sub_move_rate (v : ℚ) :
    (|v| ≤ 2 ^ 52 → fl (v - fl (6 / 5)) < v) ∧
    (|v| ≤ 2 ^ 32 → |fl (v - fl (6 / 5)) - (v - 6 / 5)| ≤ 1 / 2 ^ 20) := by
  obtain ⟨hM1, hM18, hMe⟩ := move_rate_bounds
  rw [abs_le] at hMe
  constructor
  · intro hv
    rw [abs_le] at hv
    have hx : |v - fl (6 / 5)| < 2 ^ ((52 : ℤ) + 1) := by
      rw [abs_lt]
      norm_num at hv ⊢
      constructor <;> linarith
    have he := fl_error_of_lt _ 52 (by norm_num) hx
    rw [abs_le] at he
    norm_num at he
    linarith
  · intro hv
    rw [abs_le] at hv
    have hx : |v - fl (6 / 5)| < 2 ^ ((32 : ℤ) + 1) := by
      rw [abs_lt]
      norm_num at hv ⊢
      constructor <;> linarith
    have he := fl_error_of_lt _ 32 (by norm_num) hx
    rw [abs_le] at he ⊢
    norm_num at he hMe ⊢
    constructor <;> linarith

/-- C18. With `MOVE_RATE` the double 1.2 of the constructor, and every operation
done in `double` arithmetic as the code does it: `think` adds the key impulse to
`velocityX` (-3 for a left key-down, +3 for a right key-down, nothing
otherwise), divides `velocityX` by `MOVE_RATE` and lowers `velocityY` by
`MOVE_RATE`, then moves the rectangle to the truncations of `left + velocityX`
and `top - velocityY` taken with the updated velocities, width and height
unchanged.  Absent a boundary bounce these are the final velocities, so with no
input `|velocityX|`, of a `velocityX` that is a double, does not increase and
`velocityY` strictly decreases, by 1.2 up to the rounding of the difference
(less than `2 ^ -20`).  The decrease is stated for `|velocityY| ≤ 2 ^ 52`, its
size for `|velocityY| ≤ 2 ^ 32`: beyond that `top - velocityY` fits no `int`. -/
theorem Diver_think_physics (d : Diver_Sprite) (state : Game_State)
    (hM : d.MOVE_RATE = fl (6 / 5)) :
    (Diver_Sprite.keyImpulse (some (SDL_Event.SDL_KEYDOWN SDLKey.SDLK_LEFT))
        = -fl (d.MOVE_RATE * (5 / 2)) ∧
      Diver_Sprite.keyImpulse (some (SDL_Event.SDL_KEYDOWN SDLKey.SDLK_RIGHT))
        = fl (d.MOVE_RATE * (5 / 2)) ∧
      Diver_Sprite.keyImpulse none = 0 ∧
      Diver_Sprite.keyImpulse (some (SDL_Event.SDL_KEYDOWN SDLKey.SDLK_OTHER)) = 0 ∧
      Diver_Sprite.keyImpulse (some SDL_Event.SDL_OTHER) = 0) ∧
    d.impelledX state.m_event =
      (if Diver_Sprite.keyImpulse state.m_event = 0 then d.m_velocity_x
        else fl (d.m_velocity_x + Diver_Sprite.keyImpulse state.m_event)) ∧
    (d.think state).left =
      truncToInt (fl ((d.left : ℚ) + fl (d.impelledX state.m_event / d.MOVE_RATE))) ∧
    (d.think state).top =
      truncToInt (fl ((d.top : ℚ) - fl (d.m_velocity_y - d.MOVE_RATE))) ∧
    (d.think state).width = d.width ∧ (d.think state).height = d.height ∧
    ((d.think state).m_velocity_y = fl (d.m_velocity_y - d.MOVE_RATE) ∨
      (d.think state).m_velocity_y = 18) ∧
    ((d.think state).m_velocity_x = fl (d.impelledX state.m_event / d.MOVE_RATE) ∨
      (d.think state).m_velocity_x = 24 ∨ (d.think state).m_velocity_x = -24) ∧
    ((d.think state).bottom ≤ state.m_viewport.bottom →
      (d.think state).m_velocity_y = fl (d.m_velocity_y - d.MOVE_RATE)) ∧
    ((d.think state).collidesWith state.m_viewport = true →
      (d.think state).m_velocity_x = fl (d.impelledX state.m_event / d.MOVE_RATE)) ∧
    (state.m_viewport.left < (d.think state).left →
      (d.think state).right < state.m_viewport.right →
      (d.think state).m_velocity_x = fl (d.impelledX state.m_event / d.MOVE_RATE)) ∧
    (Diver_Sprite.keyImpulse state.m_event = 0 →
      d.impelledX state.m_event = d.m_velocity_x ∧
      (fl d.m_velocity_x = d.m_velocity_x →
        |fl (d.m_velocity_x / d.MOVE_RATE)| ≤ |d.m_velocity_x|) ∧
      (|d.m_velocity_y| ≤ 2 ^ 52 → fl (d.m_velocity_y - d.MOVE_RATE) < d.m_velocity_y) ∧
      (|d.m_velocity_y| ≤ 2 ^ 32 →
        |fl (d.m_velocity_y - d.MOVE_RATE) - (d.m_velocity_y - 6 / 5)| ≤ 1 / 2 ^ 20)) ∧
    |d.MOVE_RATE - 6 / 5| ≤ 1 / 2 ^ 54 := by
  obtain ⟨hr, -, -, hvy, hvx⟩ := Diver_think_fields d state hM
  have h3 : fl (d.MOVE_RATE * (5 / 2)) = 3 := by rw [hM]; exact fl_move_rate_products.1
  have hdx : d.dampedX state.m_event = fl (d.impelledX state.m_event / d.MOVE_RATE) := by
    rw [hM]; rfl
  have hfy : d.fallenY = fl (d.m_velocity_y - d.MOVE_RATE) := by
    rw [hM]; rfl
  rw [hdx] at hvx
  rw [hfy] at hvy
  have hmx : (d.movedRect state.m_event).m_x =
      truncToInt (fl ((d.left : ℚ) + fl (d.impelledX state.m_event / d.MOVE_RATE))) := by
    rw [← hdx]; rfl
  have hmy : (d.movedRect state.m_event).m_y =
      truncToInt (fl ((d.top : ℚ) - fl (d.m_velocity_y - d.MOVE_RATE))) := by
    rw [← hfy]; rfl
  refine ⟨⟨?_, ?_, rfl, rfl, rfl⟩, rfl, ?_, ?_, ?_, ?_, ?_, ?_, ?_, ?_, ?_, ?_, ?_⟩
  · rw [h3]; rfl
  · rw [h3]; rfl
  · show (d.think state).toRect.m_x = _
    rw [hr]; exact hmx
  · show (d.think state).toRect.m_y = _
    rw [hr]; exact hmy
  · show (d.think state).toRect.m_w = _
    rw [hr]; rfl
  · show (d.think state).toRect.m_h = _
    rw [hr]; rfl
  · rw [hvy]
    split_ifs
    · exact Or.inr rfl
    · exact Or.inl rfl
  · rw [hvx]
    split_ifs
    · exact Or.inl rfl
    · exact Or.inr (Or.inr rfl)
    · exact Or.inr (Or.inl rfl)
    · exact Or.inl rfl
  · intro hb
    have hb' : ¬ (d.movedRect state.m_event).bottom > state.m_viewport.bottom := by
      have : (d.think state).toRect.bottom ≤ state.m_viewport.bottom := hb
      rw [hr] at this
      exact not_lt.mpr this
    rw [hvy, if_neg hb']
  · intro hc
    have hc' : (d.movedRect state.m_event).collidesWith state.m_viewport = true := by
      have : (d.think state).toRect.collidesWith state.m_viewport = true := hc
      rwa [hr] at this
    rw [hvx, if_pos hc']
  · intro hl hrt
    have hl' : ¬ (d.movedRect state.m_event).left ≤ state.m_viewport.left := by
      have : state.m_viewport.left < (d.think state).toRect.left := hl
      rw [hr] at this
      exact not_le.mpr this
    have hr' : ¬ (d.movedRect state.m_event).right ≥ state.m_viewport.right := by
      have : (d.think state).toRect.right < state.m_viewport.right := hrt
      rw [hr] at this
      exact not_le.mpr this
    rw [hvx, if_neg hr', if_neg hl']
    split_ifs <;> rfl
  · intro h0
    refine ⟨?_, ?_, ?_, ?_⟩
    · unfold Diver_Sprite.impelledX
      rw [if_pos h0]
    · intro hrep
      rw [hM]
      exact fl_div_move_rate _ hrep
    · rw [hM]
      exact (fl_sub_move_rate _).1
    · rw [hM]
      exact (fl_sub_move_rate _).2
  · rw [hM]
    exact move_rate_bounds.2.2

/-- C18, on the diver as the 800 by 600 game starts it, with a left key-down. -/
theorem Diver_think_physics_witness :
    ((Diver_Sprite.sample 380 280 0 (fl (-(1 / 10)))).think
      { Game_State.sample with
        m_event := some (SDL_Event.SDL_KEYDOWN SDLKey.SDLK_LEFT) }).left =
      truncToInt (fl (((Diver_Sprite.sample 380 280 0 (fl (-(1 / 10)))).left : ℚ) +
        fl ((Diver_Sprite.sample 380 280 0 (fl (-(1 / 10)))).impelledX
          (some (SDL_Event.SDL_KEYDOWN SDLKey.SDLK_LEFT)) /
            (Diver_Sprite.sample 380 280 0 (fl (-(1 / 10)))).MOVE_RATE))) :=
  (Diver_think_physics (Diver_Sprite.sample 380 280 0 (fl (-(1 / 10))))
    { Game_State.sample with
      m_event := some (SDL_Event.SDL_KEYDOWN SDLKey.SDLK_LEFT) } rfl).2.2.1

theorem Coin_reset_fields (c : Coin_Sprite) (state : Game_State) (rs : RandomStream) :
    (c.reset state rs).1.m_visible = true ∧
    (c.reset state rs).1.m_target_x =
      state.m_viewport.left + Int.tmod (rs 0) (state.m_viewport.width - c.width) ∧
    (c.reset state rs).1.m_target_y =
      state.m_viewport.top + Int.tmod (rs 1) (Int.tdiv state.m_viewport.height 3 * 2) ∧
    (c.reset state rs).1.toRect = c.toRect ∧
    (c.reset state rs).2 = fun i => rs (i + 2) := ⟨rfl, rfl, rfl, rfl, rfl⟩

/-- C20. For a viewport wider than the coin and at least 3 high, and for every
outcome of the draws, `reset` makes the coin visible, picks `targetX` in
`[viewport.left, viewport.left + viewport.width - coinWidth)` and `targetY` in
`[viewport.top, viewport.top + 2 * (viewport.height / 3))`, and leaves the
coin's rectangle where it is. -/
theorem Coin_reset_range (c : Coin_Sprite) (state : Game_State) (rs : RandomStream)
    (hw : state.m_viewport.width > c.width) (hh : state.m_viewport.height ≥ 3) :
    (c.reset state rs).1.m_visible = true ∧
    state.m_viewport.left ≤ (c.reset state rs).1.m_target_x ∧
    (c.reset state rs).1.m_target_x <
      state.m_viewport.left + state.m_viewport.width - c.width ∧
    state.m_viewport.top ≤ (c.reset state rs).1.m_target_y ∧
    (c.reset state rs).1.m_target_y <
      state.m_viewport.top + 2 * Int.tdiv state.m_viewport.height 3 ∧
    (c.reset state rs).1.toRect = c.toRect := by
  obtain ⟨hv, hx, hy, hr, -⟩ := Coin_reset_fields c state rs
  have hx0 : 0 ≤ Int.tmod (rs 0) (state.m_viewport.width - c.width) :=
    Int.tmod_nonneg _ (Int.natCast_nonneg _)
  have hx1 : Int.tmod (rs 0) (state.m_viewport.width - c.width) <
      state.m_viewport.width - c.width := Int.tmod_lt_of_pos _ (by omega)
  have h3 : 1 ≤ Int.tdiv state.m_viewport.height 3 := by
    rw [Int.tdiv_eq_ediv (by omega) (by norm_num)]
    omega
  have hy0 : 0 ≤ Int.tmod (rs 1) (Int.tdiv state.m_viewport.height 3 * 2) :=
    Int.tmod_nonneg _ (Int.natCast_nonneg _)
  have hy1 : Int.tmod (rs 1) (Int.tdiv state.m_viewport.height 3 * 2) <
      Int.tdiv state.m_viewport.height 3 * 2 := Int.tmod_lt_of_pos _ (by omega)
  refine ⟨hv, ?_, ?_, ?_, ?_, hr⟩
  · rw [hx]; omega
  · rw [hx]; omega
  · rw [hy]; omega
  · rw [hy]; omega

/-- C20, on a 32 by 32 coin in the 800 by 600 game with the draws 1000 and 777. -/
theorem Coin_reset_range_witness :
    (Coin_Sprite.sample.reset Game_State.sample (RandomStream.ofList [1000, 777])).1.m_target_x <
      Game_State.sample.m_viewport.left + Game_State.sample.m_viewport.width -
        Coin_Sprite.sample.width :=
  (Coin_reset_range Coin_Sprite.sample Game_State.sample (RandomStream.ofList [1000, 777])
    (by decide) (by decide)).2.2.1

/-- C19, as stated, fails: in the 800 by 600 game the 40 by 40 diver rising above
the viewport astride its left edge (left -10, top -100, `velocityY` 10, no key)
ends the call with left -10 and right 30, still overlapping the viewport
horizontally, yet its rectangle is above the viewport, so `bounceRight` sets
`velocityX` to 24 instead of leaving the damped value 0. -/
theorem Diver_think_bounce_above_viewport :
    ((Diver_Sprite.sample (-10) (-100) 0 10).think Game_State.sample).toRect
      = ⟨-10, -108, 40, 40⟩ ∧
    ¬ (((Diver_Sprite.sample (-10) (-100) 0 10).think Game_State.sample).right ≤
        Game_State.sample.m_viewport.left ∨
      ((Diver_Sprite.sample (-10) (-100) 0 10).think Game_State.sample).left ≥
        Game_State.sample.m_viewport.right) ∧
    (Diver_Sprite.sample (-10) (-100) 0 10).dampedX Game_State.sample.m_event = 0 ∧
    ((Diver_Sprite.sample (-10) (-100) 0 10).think Game_State.sample).m_velocity_x = 24 := by
  have he : Game_State.sample.m_event = none := rfl
  have hd : (Diver_Sprite.sample (-10) (-100) 0 10).dampedX Game_State.sample.m_event = 0 := by
    rw [he]
    simp only [Diver_Sprite.dampedX, Diver_Sprite.impelledX, Diver_Sprite.keyImpulse,
      Diver_Sprite.sample, if_true, zero_div, fl_zero]
  have hB : fl ((10 : ℚ) - fl (6 / 5)) = 2476979795053773 / 281474976710656 := by
    rw [fl_six_fifths, fl_eq_of_near _ 3 4953959590107546 (by norm_num)
      (by norm_num [abs_of_pos]) (by norm_num [abs_of_pos]) (by rw [abs_lt]; norm_num)]
    norm_num
  have hT : fl (((-100 : ℤ) : ℚ) - 2476979795053773 / 281474976710656)
      = -7656119366529843 / 70368744177664 := by
    rw [fl_eq_of_near _ 6 (-7656119366529843) (by norm_num)
      (by norm_num [abs_of_neg]) (by norm_num [abs_of_neg]) (by rw [abs_lt]; norm_num)]
    norm_num
  have hm : (Diver_Sprite.sample (-10) (-100) 0 10).movedRect Game_State.sample.m_event
      = ⟨-10, -108, 40, 40⟩ := by
    rw [he, Diver_movedRect_idle (-10) (-100) 10 (by norm_num), hB, hT,
      truncToInt_eq_of_neg _ (-108) (by norm_num) (by norm_num) (by norm_num)]
  obtain ⟨hr, -, -, -, hvx⟩ :=
    Diver_think_fields (Diver_Sprite.sample (-10) (-100) 0 10) Game_State.sample rfl
  rw [hm] at hr hvx
  refine ⟨hr, ?_, hd, ?_⟩
  · show ¬ (((Diver_Sprite.sample (-10) (-100) 0 10).think Game_State.sample).toRect.right ≤
        Game_State.sample.m_viewport.left ∨
      ((Diver_Sprite.sample (-10) (-100) 0 10).think Game_State.sample).toRect.left ≥
        Game_State.sample.m_viewport.right)
    rw [hr]
    decide
  · rw [hvx]
    decide

/-- C19, amended. With `MOVE_RATE` the double 1.2 of the constructor, after the position
update a horizontal bounce is triggered exactly when the diver's rectangle does
not collide with the viewport's (in either axis) and the diver is at or past
one of the side edges: its right at or past the viewport's right sets
`velocityX` to -24 (`bounceLeft`), otherwise its left at or past the viewport's
left sets it to +24 (`bounceRight`).  In every other case, and whenever the
rectangles collide, `velocityX` keeps its damped value.  In particular a diver
of non-negative width that no longer overlaps a viewport of positive width
horizontally is bounced back toward it. -/
theorem Diver_think_side_bounce (d : Diver_Sprite) (state : Game_State)
    (hM : d.MOVE_RATE = fl (6 / 5)) :
    ((d.think state).collidesWith state.m_viewport = true →
      (d.think state).m_velocity_x = d.dampedX state.m_event) ∧
    ((d.think state).collidesWith state.m_viewport = false →
      (d.think state).right ≥ state.m_viewport.right →
      (d.think state).m_velocity_x = -24 ∧
      (d.think state).m_velocity_x = fl (0 - fl (d.MOVE_RATE * 20))) ∧
    ((d.think state).collidesWith state.m_viewport = false →
      (d.think state).right < state.m_viewport.right →
      (d.think state).left ≤ state.m_viewport.left →
      (d.think state).m_velocity_x = 24 ∧
      (d.think state).m_velocity_x = fl (d.MOVE_RATE * 20)) ∧
    ((d.think state).collidesWith state.m_viewport = false →
      (d.think state).right < state.m_viewport.right →
      state.m_viewport.left < (d.think state).left →
      (d.think state).m_velocity_x = d.dampedX state.m_event) ∧
    (0 ≤ d.width → 0 < state.m_viewport.width →
      (d.think state).right ≤ state.m_viewport.left →
      (d.think state).m_velocity_x = 24) ∧
    (0 ≤ d.width → 0 < state.m_viewport.width →
      (d.think state).left ≥ state.m_viewport.right →
      (d.think state).m_velocity_x = -24) := by
  obtain ⟨hr, -, -, -, hvx⟩ := Diver_think_fields d state hM
  have hcol : (d.think state).collidesWith state.m_viewport =
      (d.movedRect state.m_event).collidesWith state.m_viewport := by
    show (d.think state).toRect.collidesWith state.m_viewport = _
    rw [hr]
  have hright : (d.think state).right = (d.movedRect state.m_event).right := by
    show (d.think state).toRect.right = _
    rw [hr]
  have hleft : (d.think state).left = (d.movedRect state.m_event).left := by
    show (d.think state).toRect.left = _
    rw [hr]
  have hw : (d.movedRect state.m_event).right =
      (d.movedRect state.m_event).left + d.width := rfl
  have hvr : state.m_viewport.right = state.m_viewport.left + state.m_viewport.width := rfl
  have h24 : fl (d.MOVE_RATE * 20) = 24 := by rw [hM]; exact fl_move_rate_products.2.2.1
  have hn24 : fl (0 - (24 : ℚ)) = -24 := by
    have := fl_move_rate_products.2.2.2.1
    rwa [fl_move_rate_products.2.2.1] at this
  rw [hcol, hright, hleft]
  have hnc : ∀ {b : Bool}, b = false → ¬ (b = true) := by
    intro b hb; rw [hb]; decide
  have hout : (d.movedRect state.m_event).right ≤ state.m_viewport.left ∨
      (d.movedRect state.m_event).left ≥ state.m_viewport.right →
      (d.movedRect state.m_event).collidesWith state.m_viewport = false := by
    intro h
    unfold Rect.collidesWith
    rcases h with h | h
    · split_ifs <;> rfl
    · split_ifs <;> rfl
  refine ⟨?_, ?_, ?_, ?_, ?_, ?_⟩
  · intro hc
    rw [hvx, if_pos hc]
  · intro hc hge
    rw [hvx, if_neg (hnc hc), if_pos hge, h24, hn24]
    exact ⟨rfl, rfl⟩
  · intro hc hlt hle
    rw [hvx, if_neg (hnc hc), if_neg (not_le.mpr hlt), if_pos hle, h24]
    exact ⟨rfl, rfl⟩
  · intro hc hlt hgt
    rw [hvx, if_neg (hnc hc), if_neg (not_le.mpr hlt), if_neg (not_le.mpr hgt)]
  · intro hdw hvw hle
    rw [hvx, if_neg (hnc (hout (Or.inl hle))), if_neg (by omega), if_pos (by omega)]
  · intro hdw hvw hge
    rw [hvx, if_neg (hnc (hout (Or.inr hge))), if_pos (by omega)]

/-- C19 amended, on the 40 by 40 diver carried past the left edge of the 800 by
600 viewport: `velocityX` becomes 24. -/
theorem Diver_think_side_bounce_witness :
    ((Diver_Sprite.sample (-50) 100 0 10).think Game_State.sample).m_velocity_x = 24 := by
  have he : Game_State.sample.m_event = none := rfl
  have hright : ((Diver_Sprite.sample (-50) 100 0 10).think Game_State.sample).right ≤
      Game_State.sample.m_viewport.left := by
    show ((Diver_Sprite.sample (-50) 100 0 10).think Game_State.sample).toRect.right ≤ _
    rw [(Diver_think_fields (Diver_Sprite.sample (-50) 100 0 10) Game_State.sample rfl).1, he,
      Diver_movedRect_idle (-50) 100 10 (by norm_num)]
    show (-50 : ℤ) + 40 ≤ 0
    decide
  exact (Diver_think_side_bounce (Diver_Sprite.sample (-50) 100 0 10) Game_State.sample
    rfl).2.2.2.2.1 (by decide) (by decide) hright

/-! ## Theorems: clouds that never wake, clouds in view -/

theorem Cloud_drifted_advanced (c : Cloud_Sprite) (n : ℕ) (hs : c.m_sleep ≤ 0) :
    (c.drifted n).advanced = c.drifted (n + 1) := by
  have h1 : ¬ (c.m_sleep - (n : ℤ) = 1) := by omega
  simp only [Cloud_Sprite.advanced, Cloud_Sprite.drifted, if_neg h1]
  congr 1
  · congr 1
    congr 1
    push_cast
    ring
  · push_cast
    ring

theorem Cloud_thinkTimes_drifted (c : Cloud_Sprite) (state : Game_State) (rs : RandomStream)
    (hs : c.m_sleep ≤ 0) (n : ℕ)
    (hin : ∀ k, k < n → (c.drifted (k + 1)).collidesWith state.m_viewport = true) :
    c.thinkTimes state rs n = (c.drifted n, rs) := by
  induction n with
  | zero => simp [Cloud_Sprite.thinkTimes, Cloud_Sprite.drifted]
  | succ n ih =>
    have ih' := ih (fun k hk => hin k (Nat.lt_succ_of_lt hk))
    show (c.thinkTimes state rs n).1.think state (c.thinkTimes state rs n).2 = _
    rw [ih']
    have hle : (c.drifted n).m_sleep ≤ 1 := by
      show c.m_sleep - (n : ℤ) ≤ 1
      omega
    have hc : (c.drifted n).advanced.collidesWith state.m_viewport = true := by
      rw [Cloud_drifted_advanced c n hs]
      exact hin n (Nat.lt_succ_self n)
    rw [(Cloud_think_cases (c.drifted n) state rs).2.1 hle hc, Cloud_drifted_advanced c n hs]

theorem Cloud_think_stays_invisible (c : Cloud_Sprite) (state : Game_State)
    (rs : RandomStream) (hs : c.m_sleep ≠ 1) (hv : c.m_visible = false) :
    (c.think state rs).1.m_visible = false := by
  obtain ⟨h1, h2, h3⟩ := Cloud_think_cases c state rs
  rcases lt_or_le 1 c.m_sleep with h | h
  · rw [h1 h]
    exact hv
  · cases hc : c.advanced.collidesWith state.m_viewport
    · rw [h3 h hc]
      exact (Cloud_reset_fields c.advanced state rs).1
    · rw [h2 h hc]
      show (if c.m_sleep = 1 then true else c.m_visible) = false
      rw [if_neg hs, hv]

/-- C21. If `reset` draws a sleep delay of 0, the cloud it leaves is invisible
with counter 0, and no later `think` call makes it visible before its next
reset: the counter is decremented to -1 before it is compared with zero.  As
long as the moved cloud still overlaps the viewport, each call moves the left
edge by the velocity and lowers the counter, the cloud staying invisible; and
the call after those, whether it moves the cloud or resets it, leaves it
invisible too. -/
theorem Cloud_zero_sleep_never_wakes (c : Cloud_Sprite) (state : Game_State)
    (rs rs' : RandomStream) (n : ℕ) (h0 : Int.tmod (rs 0) 60 = 0)
    (hin : ∀ k, k < n →
      ((c.reset state rs).1.drifted (k + 1)).collidesWith state.m_viewport = true) :
    (c.reset state rs).1.m_sleep = 0 ∧ (c.reset state rs).1.m_visible = false ∧
    (((c.reset state rs).1.think state rs').1.m_sleep = -1 ∨
      (c.reset state rs).1.think state rs' =
        (c.reset state rs).1.advanced.reset state rs') ∧
    (c.reset state rs).1.thinkTimes state rs' n = ((c.reset state rs).1.drifted n, rs') ∧
    ((c.reset state rs).1.thinkTimes state rs' n).1.m_visible = false ∧
    ((c.reset state rs).1.thinkTimes state rs' n).1.m_sleep = -(n : ℤ) ∧
    ((c.reset state rs).1.thinkTimes state rs' n).1.left =
      (c.reset state rs).1.left + n * (c.reset state rs).1.m_velocity ∧
    ((c.reset state rs).1.thinkTimes state rs' n).1.top = (c.reset state rs).1.top ∧
    ((c.reset state rs).1.thinkTimes state rs' (n + 1)).1.m_visible = false := by
  obtain ⟨hvis, hsl, -, -, -, -, -, -⟩ := Cloud_reset_fields c state rs
  have hs0 : (c.reset state rs).1.m_sleep = 0 := by rw [hsl, h0]
  have hdr := Cloud_thinkTimes_drifted (c.reset state rs).1 state rs' (le_of_eq hs0) n hin
  refine ⟨hs0, hvis, ?_, hdr, ?_, ?_, ?_, ?_, ?_⟩
  · have hle : (c.reset state rs).1.m_sleep ≤ 1 := by omega
    cases hc : (c.reset state rs).1.advanced.collidesWith state.m_viewport
    · exact Or.inr ((Cloud_think_cases _ state rs').2.2 hle hc)
    · left
      rw [(Cloud_think_cases _ state rs').2.1 hle hc]
      show (c.reset state rs).1.m_sleep - 1 = -1
      omega
  · rw [hdr]
    exact hvis
  · rw [hdr]
    show (c.reset state rs).1.m_sleep - (n : ℤ) = -(n : ℤ)
    omega
  · rw [hdr]
    rfl
  · rw [hdr]
    rfl
  · show (((c.reset state rs).1.thinkTimes state rs' n).1.think state
      ((c.reset state rs).1.thinkTimes state rs' n).2).1.m_visible = false
    rw [hdr]
    apply Cloud_think_stays_invisible
    · show (c.reset state rs).1.m_sleep - (n : ℤ) ≠ 1
      omega
    · exact hvis

/-- C21, on a 160 by 75 cloud of the 800 by 600 game reset with the draws 0, 2,
0, 10 and then advanced three times: it has moved from -158 to -149 and is
still invisible. -/
theorem Cloud_zero_sleep_never_wakes_witness :
    ((Cloud_Sprite.sample 0 0 0 0 true).reset Game_State.sample
        (RandomStream.ofList [0, 2, 0, 10])).1.thinkTimes Game_State.sample
        (RandomStream.ofList []) 3 =
      (Cloud_Sprite.sample (-149) 310 (-3) 3 false, RandomStream.ofList []) :=
  (Cloud_zero_sleep_never_wakes (Cloud_Sprite.sample 0 0 0 0 true) Game_State.sample
    (RandomStream.ofList [0, 2, 0, 10]) (RandomStream.ofList []) 3 (by decide)
    (by decide)).2.2.2.1

theorem Rect_collidesWith_of_overlap (A B : Rect) (h1 : B.top < A.bottom)
    (h2 : A.top < B.bottom) (h3 : B.left < A.right) (h4 : A.left < B.right) :
    A.collidesWith B = true := by
  unfold Rect.collidesWith
  rw [if_neg (not_le.mpr h1), if_neg (not_le.mpr h2), if_neg (not_le.mpr h3),
    if_neg (not_le.mpr h4)]

theorem Cloud_reset_rect (c : Cloud_Sprite) (state : Game_State) (rs : RandomStream)
    (htop : state.m_viewport.top = 0) (hw : 5 ≤ state.m_viewport.width)
    (hh : 8 ≤ state.m_viewport.height)
    (hcw : c.width = Int.tdiv state.m_viewport.width 5)
    (hch : c.height = Int.tdiv state.m_viewport.height 8) :
    (c.reset state rs).1.collidesWith state.m_viewport = true ∧
    (c.reset state rs).1.overlapColumns state.m_viewport =
      min 2 (Int.tdiv state.m_viewport.width 5) ∧
    Int.tdiv state.m_viewport.height 2 ≤ (c.reset state rs).1.top ∧
    (c.reset state rs).1.bottom ≤ state.m_viewport.height := by
  obtain ⟨-, -, -, hx, hy, hmw, hmh, -⟩ := Cloud_reset_fields c state rs
  obtain ⟨hev, hodd⟩ := Cloud_reset_velocity c state rs
  have hw' : 5 ≤ state.m_viewport.m_w := hw
  have hh' : 8 ≤ state.m_viewport.m_h := hh
  have htop' : state.m_viewport.m_y = 0 := htop
  have hd5 : Int.tdiv state.m_viewport.m_w 5 = state.m_viewport.m_w / 5 :=
    Int.tdiv_eq_ediv (by omega) (by norm_num)
  have hd8 : Int.tdiv state.m_viewport.m_h 8 = state.m_viewport.m_h / 8 :=
    Int.tdiv_eq_ediv (by omega) (by norm_num)
  have hd2 : Int.tdiv state.m_viewport.m_h 2 = state.m_viewport.m_h / 2 :=
    Int.tdiv_eq_ediv (by omega) (by norm_num)
  have ew : (c.reset state rs).1.m_w = state.m_viewport.m_w / 5 := by
    rw [hmw, ← hd5]; exact hcw
  have eh : (c.reset state rs).1.m_h = state.m_viewport.m_h / 8 := by
    rw [hmh, ← hd8]; exact hch
  have hpos : 0 < Int.tdiv state.m_viewport.height 2 - Int.tdiv state.m_viewport.height 8 := by
    show 0 < Int.tdiv state.m_viewport.m_h 2 - Int.tdiv state.m_viewport.m_h 8
    rw [hd2, hd8]
    omega
  have hy0 : 0 ≤ Int.tmod (rs 3)
      (Int.tdiv state.m_viewport.height 2 - Int.tdiv state.m_viewport.height 8) :=
    Int.tmod_nonneg _ (Int.natCast_nonneg _)
  have hy1 : Int.tmod (rs 3)
      (Int.tdiv state.m_viewport.height 2 - Int.tdiv state.m_viewport.height 8) <
      Int.tdiv state.m_viewport.height 2 - Int.tdiv state.m_viewport.height 8 :=
    Int.tmod_lt_of_pos _ hpos
  have ey1 : state.m_viewport.m_h / 2 ≤ (c.reset state rs).1.m_y := by
    rw [hy]
    show _ ≤ Int.tdiv state.m_viewport.m_h 2 + _
    rw [hd2]
    omega
  have ey2 : (c.reset state rs).1.m_y + state.m_viewport.m_h / 8 < state.m_viewport.m_h := by
    rw [hy]
    have hy1' : Int.tmod (rs 3)
      (Int.tdiv state.m_viewport.height 2 - Int.tdiv state.m_viewport.height 8) <
      state.m_viewport.m_h / 2 - state.m_viewport.m_h / 8 := by
      rw [← hd2, ← hd8]; exact hy1
    show Int.tdiv state.m_viewport.m_h 2 + _ + _ < _
    rw [hd2]
    omega
  have ex : ((c.reset state rs).1.m_x = state.m_viewport.m_x - (state.m_viewport.m_w / 5 - 2)) ∨
      ((c.reset state rs).1.m_x = state.m_viewport.m_x + (state.m_viewport.m_w - 2)) := by
    by_cases h : Int.tmod (rs 2) 2 = 0
    · left
      rw [hx, if_pos (by have := hev h; omega), ← hd5]
      rfl
    · right
      rw [hx, if_neg (by have := hodd h; omega)]
      rfl
  refine ⟨?_, ?_, ?_, ?_⟩
  · apply Rect_collidesWith_of_overlap
    · show state.m_viewport.m_y < (c.reset state rs).1.m_y + (c.reset state rs).1.m_h
      rw [eh]; omega
    · show (c.reset state rs).1.m_y < state.m_viewport.m_y + state.m_viewport.m_h
      omega
    · show state.m_viewport.m_x < (c.reset state rs).1.m_x + (c.reset state rs).1.m_w
      rw [ew]; omega
    · show (c.reset state rs).1.m_x < state.m_viewport.m_x + state.m_viewport.m_w
      omega
  · show min ((c.reset state rs).1.m_x + (c.reset state rs).1.m_w)
        (state.m_viewport.m_x + state.m_viewport.m_w) -
        max (c.reset state rs).1.m_x state.m_viewport.m_x =
      min 2 (Int.tdiv state.m_viewport.m_w 5)
    rw [ew, hd5]
    omega
  · show Int.tdiv state.m_viewport.m_h 2 ≤ (c.reset state rs).1.m_y
    rw [hd2]; exact ey1
  · show (c.reset state rs).1.m_y + (c.reset state rs).1.m_h ≤ state.m_viewport.m_h
    rw [eh]; omega

theorem Cloud_think_size (c : Cloud_Sprite) (state : Game_State) (rs : RandomStream) :
    (c.think state rs).1.width = c.width ∧ (c.think state rs).1.height = c.height := by
  obtain ⟨h1, h2, h3⟩ := Cloud_think_cases c state rs
  rcases lt_or_le 1 c.m_sleep with h | h
  · rw [h1 h]
    exact ⟨rfl, rfl⟩
  · cases hc : c.advanced.collidesWith state.m_viewport
    · rw [h3 h hc]
      obtain ⟨-, -, -, -, -, hmw, hmh, -⟩ := Cloud_reset_fields c.advanced state rs
      exact ⟨hmw, hmh⟩
    · rw [h2 h hc]
      exact ⟨rfl, rfl⟩

/-- C22, as stated, fails: for the viewport `(0, 0, 5, 8)`, of width 5 and height
8, a cloud of size `(5/5, 8/8) = (1, 1)` reset with the draws 0, 0, 0, 0 lies at
left edge 1 and shares one pixel column with the viewport, not two. -/
theorem Cloud_reset_one_column :
    Game_State.tiny.m_viewport.top = 0 ∧ 5 ≤ Game_State.tiny.m_viewport.width ∧
    8 ≤ Game_State.tiny.m_viewport.height ∧
    Cloud_Sprite.tiny.width = Int.tdiv Game_State.tiny.m_viewport.width 5 ∧
    Cloud_Sprite.tiny.height = Int.tdiv Game_State.tiny.m_viewport.height 8 ∧
    (Cloud_Sprite.tiny.reset Game_State.tiny (RandomStream.ofList [0, 0, 0, 0])).1.left = 1 ∧
    (Cloud_Sprite.tiny.reset Game_State.tiny (RandomStream.ofList [0, 0, 0, 0])).1.right = 2 ∧
    (Cloud_Sprite.tiny.reset Game_State.tiny
      (RandomStream.ofList [0, 0, 0, 0])).1.overlapColumns Game_State.tiny.m_viewport = 1 ∧
    (Cloud_Sprite.tiny.reset Game_State.tiny
      (RandomStream.ofList [0, 0, 0, 0])).1.overlapColumns Game_State.tiny.m_viewport ≠ 2 := by
  decide

/-- C22, amended. For a viewport with top 0, width at least 5 and height at least
8, and a cloud of size `(viewport.width/5, viewport.height/8)`, the rectangle
`reset` produces overlaps the viewport for every outcome of the draws: it shares
`min 2 (viewport.width/5)` pixel columns with it, which is 2 from width 10 on
and 1 for widths 5 to 9, and vertically `viewport.height/2 <= top` and
`bottom <= viewport.height`.  Hence after every `think` call that gets past the
sleep check the cloud's rectangle collides with the viewport; `think` keeps the
cloud's size. -/
theorem Cloud_reset_in_view (c : Cloud_Sprite) (state : Game_State) (rs : RandomStream)
    (htop : state.m_viewport.top = 0) (hw : 5 ≤ state.m_viewport.width)
    (hh : 8 ≤ state.m_viewport.height)
    (hcw : c.width = Int.tdiv state.m_viewport.width 5)
    (hch : c.height = Int.tdiv state.m_viewport.height 8) :
    (c.reset state rs).1.collidesWith state.m_viewport = true ∧
    (c.reset state rs).1.overlapColumns state.m_viewport =
      min 2 (Int.tdiv state.m_viewport.width 5) ∧
    (10 ≤ state.m_viewport.width →
      (c.reset state rs).1.overlapColumns state.m_viewport = 2) ∧
    (state.m_viewport.width ≤ 9 →
      (c.reset state rs).1.overlapColumns state.m_viewport = 1) ∧
    Int.tdiv state.m_viewport.height 2 ≤ (c.reset state rs).1.top ∧
    (c.reset state rs).1.bottom ≤ state.m_viewport.height ∧
    (c.m_sleep ≤ 1 → (c.think state rs).1.collidesWith state.m_viewport = true) ∧
    (c.think state rs).1.width = c.width ∧ (c.think state rs).1.height = c.height := by
  obtain ⟨hcol, hov, htp, hbt⟩ := Cloud_reset_rect c state rs htop hw hh hcw hch
  have hw' : 5 ≤ state.m_viewport.m_w := hw
  have hd5 : Int.tdiv state.m_viewport.width 5 = state.m_viewport.m_w / 5 :=
    Int.tdiv_eq_ediv (by omega) (by norm_num)
  refine ⟨hcol, hov, ?_, ?_, htp, hbt, ?_, Cloud_think_size c state rs⟩
  · intro h10
    have h10' : 10 ≤ state.m_viewport.m_w := h10
    rw [hov, hd5]
    omega
  · intro h9
    have h9' : state.m_viewport.m_w ≤ 9 := h9
    rw [hov, hd5]
    omega
  · intro hs
    cases hc : c.advanced.collidesWith state.m_viewport
    · rw [(Cloud_think_cases c state rs).2.2 hs hc]
      exact (Cloud_reset_rect c.advanced state rs htop hw hh hcw hch).1
    · rw [(Cloud_think_cases c state rs).2.1 hs hc]
      exact hc

/-- C22 amended, on a 160 by 75 cloud of the 800 by 600 game reset with the draws
30, 2, 1, 10: it collides with the viewport and shares two columns with it. -/
theorem Cloud_reset_in_view_witness :
    ((Cloud_Sprite.sample 0 0 0 0 true).reset Game_State.sample
      (RandomStream.ofList [30, 2, 1, 10])).1.collidesWith Game_State.sample.m_viewport
        = true ∧
    ((Cloud_Sprite.sample 0 0 0 0 true).reset Game_State.sample
      (RandomStream.ofList [30, 2, 1, 10])).1.overlapColumns Game_State.sample.m_viewport
        = 2 :=
  ⟨(Cloud_reset_in_view (Cloud_Sprite.sample 0 0 0 0 true) Game_State.sample
      (RandomStream.ofList [30, 2, 1, 10]) (by decide) (by decide) (by decide) (by decide)
      (by decide)).1,
    (Cloud_reset_in_view (Cloud_Sprite.sample 0 0 0 0 true) Game_State.sample
      (RandomStream.ofList [30, 2, 1, 10]) (by decide) (by decide) (by decide) (by decide)
      (by decide)).2.2.1 (by decide)⟩

end SkyDiveDan
